import Mathlib

/-!
Verification of the connection-dispatch core of the neqo QUIC server
(`neqo-transport/src/server.rs`).

The dispatcher itself (`Server`, `RetryToken`, `ServerConnectionIdManager`,
`process_connection`, `process_input`, `handle_initial`, `accept_connection`,
`process_next_output`, `next_time`, `process`) is translated directly from the
source.  External collaborators that the dispatcher only uses through an
interface — the packet header codec, the per-connection QUIC state machine,
the underlying connection-ID generator and the timer wheel — are modelled
from the specification as black boxes: codec and generator as oracle
functions in an `Env`, the connection as a scripted state machine that may
return any sequence of outputs its contract allows, and the timer wheel as a
list of (deadline, connection) entries.

Machine integers are `Nat` (no arithmetic here overflows in the source:
instants and durations are checked-arithmetic types in the source, whose
panicking subtraction is modelled explicitly).  Code that can panic
(slice indexing, `unwrap`, `assert!`) is modelled in the `Option` monad,
`none` meaning a panic; the two drain loops of `process_next_output`, which
the source runs unboundedly, take explicit fuel and return `none` on
exhaustion.
-/

set_option maxRecDepth 8000

namespace Neqo

abbrev Byte := Nat

/-- `ConnectionId`: a variable-length opaque byte string (packet.rs, not in
scope; modelled from the spec as its byte list). -/
abbrev ConnectionId := List Byte

abbrev Version := Nat

/-- Modelled from the spec: the packet-type discriminant of a decoded header
(`PacketType` lives in packet.rs, outside the dispatcher source). -/
inductive PacketType where
  | Initial (token : List Byte)
  | Handshake
  | ZeroRtt
  | Short
  | Retry (odcid : ConnectionId) (token : List Byte)
  | VN (versions : List Version)
deriving DecidableEq, Repr

/-- Modelled from the spec: the decoded packet header (`PacketHdr` lives in
packet.rs).  Field order follows `PacketHdr::new(tbyte, tipe, version, dcid,
scid, pn, epoch)`. -/
structure PacketHdr where
  tbyte : Byte
  tipe : PacketType
  version : Option Version
  dcid : ConnectionId
  scid : Option ConnectionId
  pn : Nat
  epoch : Nat
deriving DecidableEq, Repr

/-- Modelled from the spec: a datagram is `(source_addr, destination_addr,
payload_bytes)`; addresses are abstract (`Nat`).  `Datagram::new(src, dst,
body)`. -/
structure Datagram where
  source : Nat
  destination : Nat
  payload : List Byte
deriving DecidableEq, Repr

/-- `Output` of `Connection::process` and `Server::process`
(connection.rs enum, modelled from the spec contract). -/
inductive Output where
  | Datagram (d : Datagram)
  | Callback (delay : Nat)
  | None
deriving DecidableEq, Repr

/-- `Output::dgram()`: the datagram carried by the output, if any. -/
def Output.dgram : Output → Option Neqo.Datagram
  | Output.Datagram d => some d
  | _ => none

/-- Modelled from the spec: the connection state enum
(`connection.rs::State`), of which the dispatcher only inspects `Closed`. -/
inductive ConnTState where
  | Init
  | Handshaking
  | Connected
  | Closing
  | Draining
  | Closed (reason : Nat)
deriving DecidableEq, Repr

/-- `matches!(state, State::Closed(_))`. -/
def ConnTState.isClosed : ConnTState → Bool
  | ConnTState.Closed _ => true
  | _ => false

/-- One scripted step of the black-box connection: the `Output` its
`process` returns, its `state()` and `has_events()` afterwards, and how many
times it called `generate_cid` on its CID manager during the step. -/
structure ConnStep where
  out : Output
  state : ConnTState
  hasEvents : Bool
  mints : Nat
deriving DecidableEq, Repr

/-- Modelled from the spec: the per-connection QUIC state machine
(connection.rs, outside the dispatcher source) as a black box.  Its
externally visible behaviour — the sequence of `Output`s, states, event
flags and CID mints — is an arbitrary pre-recorded script, so theorems
quantifying over `Connection` cover every behaviour the contract allows.
`log` records every `process(dgram, now)` call made to it. -/
structure Connection where
  scriptRest : List ConnStep
  curState : ConnTState
  curEvents : Bool
  odcid : Option ConnectionId
  log : List (Option Datagram × Nat)
deriving DecidableEq, Repr

/-- Modelled from the spec: `Connection::process` consumes the next script
step (an exhausted script keeps returning `Output::None`). -/
def Connection.process (c : Connection) (d : Option Datagram) (now : Nat) :
    Connection × Output × Nat :=
  match c.scriptRest with
  | [] => ({ c with log := c.log ++ [(d, now)] }, Output.None, 0)
  | st :: rest =>
    ({ c with scriptRest := rest, curState := st.state, curEvents := st.hasEvents,
              log := c.log ++ [(d, now)] }, st.out, st.mints)

/-- Modelled from the spec: `Connection::original_connection_id` records the
original destination CID (delivered via transport parameters). -/
def Connection.original_connection_id (c : Connection) (o : ConnectionId) :
    Connection :=
  { c with odcid := some o }

/-- `ServerConnectionState`: a connection paired with its last scheduled
timer deadline. -/
structure ServerConnectionState where
  c : Connection
  last_timer : Nat
deriving DecidableEq, Repr

/-- The environment of external oracles, all modelled from the spec:
`decode` is `decode_packet_hdr` with the CID decoder baked in, `encVn` and
`encRetry` are the packet.rs encoders, `mint` is the underlying top-level
CID generator (`cid_manager.generate_cid()` as a function of how many CIDs
were generated so far), and `newServer` is `Connection::new_server` (the
fresh connection's script, indexed by the reference the server will assign
it; `none` is construction failure). -/
structure Env where
  decode : List Byte → Option PacketHdr
  encVn : PacketHdr → List Byte
  encRetry : PacketHdr → List Byte
  mint : Nat → ConnectionId
  newServer : Nat → Option Connection

/-- The `Server` state.  `Rc<RefCell<ServerConnectionState>>` handles become
numeric references into `heap` (pointer equality = reference equality);
`connections` is the CID registry, `timers` the timer wheel (modelled from
the spec as (deadline, reference) entries), `waiting` the queue of
connections owed an immediate poll, `active` the set of connections with
unconsumed events, `cidCounter` the state of the underlying CID generator.
The certificate / ALPN / anti-replay configuration is only passed through to
`Connection::new_server` (absorbed into `Env.newServer`) and is omitted. -/
structure Server where
  version : Version
  heap : List (Nat × ServerConnectionState)
  nextRef : Nat
  connections : List (ConnectionId × Nat)
  waiting : List Nat
  timers : List (Nat × Nat)
  active : List Nat
  require_retry : Bool
  cidCounter : Nat
deriving DecidableEq, Repr

/-- Association-list lookup (the behaviour of `HashMap::get`). -/
def alookup {α β : Type} [DecidableEq α] : List (α × β) → α → Option β
  | [], _ => none
  | e :: rest, k => if e.1 = k then some e.2 else alookup rest k

/-- Point update of the heap (writing through an `Rc<RefCell<_>>`). -/
def heapSet (h : List (Nat × ServerConnectionState)) (r : Nat)
    (v : ServerConnectionState) : List (Nat × ServerConnectionState) :=
  h.map fun e => if e.1 = r then (r, v) else e

def FIXED_TOKEN : List Byte := [1, 2, 3]

def MIN_INITIAL_PACKET_SIZE : Nat := 1200

inductive RetryTokenResult where
  | Pass
  | Valid (cid : ConnectionId)
  | Validate
  | Invalid
deriving DecidableEq, Repr

/-- `RetryToken::generate_token`: `FIXED_TOKEN` followed by the original
destination CID. -/
def RetryToken.generate_token (dcid : ConnectionId) : List Byte :=
  FIXED_TOKEN ++ dcid

/-- `RetryToken::validate`.  The source slices `token[0..FIXED_TOKEN.len()]`
on any non-empty token, which panics when `token.len() < 3`; that panic is
the `none` case. -/
def RetryToken.validate (require_retry : Bool) (hdr : PacketHdr) :
    Option RetryTokenResult :=
  match hdr.tipe with
  | PacketType.Initial token =>
    if token = [] then
      some (if require_retry then RetryTokenResult.Validate
            else RetryTokenResult.Pass)
    else if token.length < FIXED_TOKEN.length then
      none
    else if token.take FIXED_TOKEN.length = FIXED_TOKEN then
      some (RetryTokenResult.Valid (token.drop FIXED_TOKEN.length))
    else
      some RetryTokenResult.Invalid
  | _ => some RetryTokenResult.Invalid

/-- The server's top-level `cid_manager.borrow_mut().generate_cid()` (the
raw generator, with no registry side effect). -/
def topGenerateCid (env : Env) (cc : Nat) : ConnectionId × Nat :=
  (env.mint cc, cc + 1)

/-- `ServerConnectionIdManager::generate_cid` for the wrapper whose
connection is `r`: mint from the underlying generator, `assert!` the CID is
non-empty (panic = `none`), insert it into the registry bound to `r`, and
`debug_assert!` that any displaced entry was already bound to `r`
(debug-build panic = `none`).  Returns the CID, the advanced generator state
and the new registry. -/
def wrapperGenerateCid (env : Env) (cc : Nat) (reg : List (ConnectionId × Nat))
    (r : Nat) : Option (ConnectionId × Nat × List (ConnectionId × Nat)) :=
  if env.mint cc = [] then none
  else
    match alookup reg (env.mint cc) with
    | some v =>
      if v = r then
        some (env.mint cc, cc + 1,
          (env.mint cc, r) :: reg.filter fun e => decide (e.1 ≠ env.mint cc))
      else none
    | none =>
      some (env.mint cc, cc + 1,
        (env.mint cc, r) :: reg.filter fun e => decide (e.1 ≠ env.mint cc))

/-- The `n` calls to `generate_cid` a connection makes during one
`process` step, threaded through the generator state and the registry. -/
def doMints (env : Env) (r : Nat) :
    Nat → Nat → List (ConnectionId × Nat) →
    Option (Nat × List (ConnectionId × Nat))
  | 0, cc, reg => some (cc, reg)
  | n + 1, cc, reg =>
    match wrapperGenerateCid env cc reg r with
    | none => none
    | some (_, cc', reg') => doMints env r n cc' reg'

/-- `Server::remove_timer`: drop the wheel entries at the connection's
`last_timer` deadline that match it by identity. -/
def removeTimer (s : Server) (r : Nat) : Server :=
  match alookup s.heap r with
  | none => s
  | some scs =>
    { s with timers :=
        s.timers.filter fun e => decide (¬(e.1 = scs.last_timer ∧ e.2 = r)) }

/-- Membership test backing `HashSet::insert` on the active set (identity
keyed). -/
def insertActive (a : List Nat) (r : Nat) : List Nat :=
  if r ∈ a then a else a ++ [r]

/-- The `match out` classification inside `process_connection`, applied to a
server whose heap already holds the post-`process` connection `c'` (with the
old `last_timer`, which `remove_timer` reads). -/
def applyOutput (s : Server) (r : Nat) (c' : Connection) (lastTimer : Nat)
    (out : Output) (now : Nat) : Server :=
  match out with
  | Output.Datagram _ => { s with waiting := s.waiting ++ [r] }
  | Output.Callback delay =>
    let next := now + delay
    if next = lastTimer then s
    else
      let s1 := removeTimer s r
      { s1 with heap := heapSet s1.heap r { c := c', last_timer := next },
                timers := s1.timers ++ [(next, r)] }
  | Output.None => removeTimer s r

/-- The infallible tail of `process_connection`, once the connection's step
`(c', out)` and the registry `reg` / generator state `cc` after its CID
mints are known: install the stepped connection, classify the output,
record events, and purge the registry entries of a `Closed` connection. -/
def pcFinish (s : Server) (r : Nat) (scs : ServerConnectionState)
    (c' : Connection) (out : Output) (cc : Nat)
    (reg : List (ConnectionId × Nat)) (now : Nat) : Server :=
  let s1 : Server :=
    { s with cidCounter := cc, connections := reg,
             heap := heapSet s.heap r { scs with c := c' } }
  let s2 := applyOutput s1 r c' scs.last_timer out now
  let s3 := if c'.curEvents
            then { s2 with active := insertActive s2.active r } else s2
  if c'.curState.isClosed
  then { s3 with connections := s3.connections.filter fun e => decide (e.2 ≠ r) }
  else s3

/-- `Server::process_connection`: run the connection's `process` (applying
its CID mints to the registry), classify the output into waiting-queue /
timer updates, record events in the active set, purge every registry entry
of a connection that reports `Closed`, and return `out.dgram()`. -/
def process_connection (env : Env) (s : Server) (r : Nat)
    (dgram : Option Datagram) (now : Nat) : Option (Server × Option Datagram) :=
  match alookup s.heap r with
  | none => none
  | some scs =>
    match doMints env r (Connection.process scs.c dgram now).2.2
        s.cidCounter s.connections with
    | none => none
    | some (cc, reg) =>
      some (pcFinish s r scs (Connection.process scs.c dgram now).1
              (Connection.process scs.c dgram now).2.1 cc reg now,
            (Connection.process scs.c dgram now).2.1.dgram)

/-- `Server::create_vn`: the Version Negotiation reply.  The version list is
the supported version and the GREASE value `0xaaba_cada`; destination CID is
the client's SCID (`unwrap` panic = `none` when absent), source CID the
client's DCID; the reply's addresses are the received datagram's swapped. -/
def create_vn (version : Version) (encVn : PacketHdr → List Byte)
    (hdr : PacketHdr) (received : Datagram) : Option Datagram :=
  match hdr.scid with
  | none => none
  | some scid =>
    some { source := received.destination, destination := received.source,
           payload := encVn
             { tbyte := 0, tipe := PacketType.VN [version, 0xaabacada],
               version := some 0, dcid := scid, scid := some hdr.dcid,
               pn := 0, epoch := 0 } }

/-- `Server::accept_connection`: build a fresh connection (failure logs and
drops), tell it the original destination CID when one was restored from a
Retry token, install it in the heap with `last_timer = now`, and deliver the
datagram through `process_connection`. -/
def accept_connection (env : Env) (s : Server) (odcid : Option ConnectionId)
    (dgram : Datagram) (now : Nat) : Option (Server × Option Datagram) :=
  match env.newServer s.nextRef with
  | none => some (s, none)
  | some c0 =>
    let c1 := match odcid with
              | some o => Connection.original_connection_id c0 o
              | none => c0
    let r := s.nextRef
    let s1 : Server :=
      { s with heap := (r, { c := c1, last_timer := now }) :: s.heap,
               nextRef := r + 1 }
    process_connection env s1 r (some dgram) now

/-- `Server::handle_initial`: dispatch on `retry.validate(hdr)`; the
`Validate` arm synthesises a stateless Retry whose token is
`generate_token(hdr.dcid)`, whose destination CID is the client's SCID
(`unwrap` panic = `none` when absent) and whose source CID is freshly minted
from the top-level generator. -/
def handle_initial (env : Env) (s : Server) (hdr : PacketHdr)
    (dgram : Datagram) (now : Nat) : Option (Server × Option Datagram) :=
  match RetryToken.validate s.require_retry hdr with
  | none => none
  | some RetryTokenResult.Invalid => some (s, none)
  | some RetryTokenResult.Pass => accept_connection env s none dgram now
  | some (RetryTokenResult.Valid dcid) =>
    accept_connection env s (some dcid) dgram now
  | some RetryTokenResult.Validate =>
    match hdr.scid with
    | none => none
    | some scid0 =>
      let token := RetryToken.generate_token hdr.dcid
      let minted := topGenerateCid env s.cidCounter
      let payload := env.encRetry
        { tbyte := 0, tipe := PacketType.Retry hdr.dcid token,
          version := some s.version, dcid := scid0, scid := some minted.1,
          pn := 0, epoch := 0 }
      some ({ s with cidCounter := minted.2 },
            some { source := dgram.destination, destination := dgram.source,
                   payload := payload })

/-- `Server::process_input`: decode the first header (failure drops), route
registry hits to the owning connection, drop unknown short-header packets,
drop under-sized datagrams, answer wrong versions with Version Negotiation,
and hand the rest to `handle_initial`. -/
def process_input (env : Env) (s : Server) (dgram : Datagram) (now : Nat) :
    Option (Server × Option Datagram) :=
  match env.decode dgram.payload with
  | none => some (s, none)
  | some hdr =>
    match alookup s.connections hdr.dcid with
    | some r => process_connection env s r (some dgram) now
    | none =>
      if hdr.tipe = PacketType.Short then some (s, none)
      else if dgram.payload.length < MIN_INITIAL_PACKET_SIZE then some (s, none)
      else if hdr.version ≠ some s.version then
        match create_vn s.version env.encVn hdr dgram with
        | none => none
        | some d => some (s, some d)
      else handle_initial env s hdr dgram now

/-- Modelled from the spec: `Timer::take_next(now)` removes and returns a
connection whose deadline has passed (`deadline ≤ now`). -/
def takeNext : List (Nat × Nat) → Nat → Option (Nat × List (Nat × Nat))
  | [], _ => none
  | e :: rest, now =>
    if e.1 ≤ now then some (e.2, rest)
    else
      match takeNext rest now with
      | some (r, rest') => some (r, e :: rest')
      | none => none

/-- The first loop of `Server::process_next_output`: pop the waiting queue
front-to-back, giving each connection a no-input tick, until one emits a
datagram.  `fuel` bounds the source's unbounded `while`; exhaustion is the
outer `none`. -/
def drainWaiting (env : Env) (now : Nat) :
    Nat → Server → Option (Server × Option Datagram)
  | 0, _ => none
  | fuel + 1, s =>
    match s.waiting with
    | [] => some (s, none)
    | r :: rest =>
      match process_connection env { s with waiting := rest } r none now with
      | none => none
      | some (s', some d) => some (s', some d)
      | some (s', none) => drainWaiting env now fuel s'

/-- The second loop of `Server::process_next_output`: drain timer entries
whose deadline has passed, until one connection emits a datagram. -/
def drainTimers (env : Env) (now : Nat) :
    Nat → Server → Option (Server × Option Datagram)
  | 0, _ => none
  | fuel + 1, s =>
    match takeNext s.timers now with
    | none => some (s, none)
    | some (r, timers') =>
      match process_connection env { s with timers := timers' } r none now with
      | none => none
      | some (s', some d) => some (s', some d)
      | some (s', none) => drainTimers env now fuel s'

/-- `Server::process_next_output`: the waiting-queue drain followed by the
timer drain. -/
def process_next_output (env : Env) (s : Server) (now fuel : Nat) :
    Option (Server × Option Datagram) :=
  match drainWaiting env now fuel s with
  | none => none
  | some (s1, some d) => some (s1, some d)
  | some (s1, none) => drainTimers env now fuel s1

/-- Modelled from the spec: `Timer::next_time()`, the wheel's earliest
deadline. -/
def timersNextTime : List (Nat × Nat) → Option Nat
  | [] => none
  | e :: rest =>
    match timersNextTime rest with
    | none => some e.1
    | some m => some (min e.1 m)

/-- `Server::next_time`: `0` when the waiting queue is non-empty, else the
earliest wheel deadline minus `now`.  `Instant` subtraction panics when the
deadline is earlier than `now` (outer `none`); the inner option is the
source's `Option<Duration>`. -/
def next_time (s : Server) (now : Nat) : Option (Option Nat) :=
  if s.waiting.isEmpty then
    match timersNextTime s.timers with
    | none => some none
    | some x => if now ≤ x then some (some (x - now)) else none
  else some (some 0)

/-- `Server::process`: feed the input (if any) through `process_input`,
otherwise poll `process_next_output`; a produced datagram is returned as
`Output::Datagram`, else `next_time` decides between `Output::Callback` and
`Output::None`. -/
def Server.process (env : Env) (s : Server) (dgram : Option Datagram)
    (now fuel : Nat) : Option (Server × Output) :=
  match (match dgram with
         | some d => process_input env s d now
         | none => some (s, none)) with
  | none => none
  | some (s1, some d) => some (s1, Output.Datagram d)
  | some (s1, none) =>
    match process_next_output env s1 now fuel with
    | none => none
    | some (s2, some d) => some (s2, Output.Datagram d)
    | some (s2, none) =>
      match next_time s2 now with
      | none => none
      | some (some delay) => some (s2, Output.Callback delay)
      | some none => some (s2, Output.None)

/-- `Server::new`: fresh version-`v` server with empty collections and
`require_retry = false` (`RetryToken::default`). -/
def Server.new (v : Version) : Server :=
  { version := v, heap := [], nextRef := 0, connections := [], waiting := [],
    timers := [], active := [], require_retry := false, cidCounter := 0 }

/-- The timer-wheel entries that belong to connection `r`. -/
def timersOfConn (timers : List (Nat × Nat)) (r : Nat) : List (Nat × Nat) :=
  timers.filter fun e => decide (e.2 = r)

/-- The dispatcher's timer invariant: heap references are below `nextRef`
(fresh references never collide), every connection has at most one entry in
the timer wheel, and every wheel entry's deadline equals the stored
`last_timer` of the connection it belongs to. -/
def ServerInvP (s : Server) : Prop :=
  (∀ p ∈ s.heap, p.1 < s.nextRef) ∧
  (∀ e ∈ s.timers, (timersOfConn s.timers e.2).length ≤ 1) ∧
  (∀ e ∈ s.timers,
    (alookup s.heap e.2).map (fun scs => scs.last_timer) = some e.1)

/-- The registry invariant: every registry entry points at a connection
that is in the heap and whose state is not `Closed`. -/
def RegistryInvP (s : Server) : Prop :=
  ∀ p ∈ s.connections,
    (alookup s.heap p.2).map (fun scs => scs.c.curState.isClosed) = some false

instance (s : Server) : Decidable (ServerInvP s) := by
  unfold ServerInvP
  exact inferInstance

instance (s : Server) : Decidable (RegistryInvP s) := by
  unfold RegistryInvP
  exact inferInstance

/-! ### Concrete scenario data (spec section 8: S1 VN, S3 retry dance,
S5 timer coalescing), used to evaluate the model on closed inputs. -/

/-- A freshly constructed connection with no scripted activity. -/
def c0W : Connection :=
  { scriptRest := [], curState := ConnTState.Init, curEvents := false,
    odcid := none, log := [] }

/-- A connection that answers its first `process` with `Callback(5)`. -/
def cCbW : Connection :=
  { scriptRest := [{ out := Output.Callback 5,
                     state := ConnTState.Handshaking,
                     hasEvents := false, mints := 0 }],
    curState := ConnTState.Init, curEvents := false, odcid := none, log := [] }

/-- A connection that closes on its first `process`. -/
def cClW : Connection :=
  { scriptRest := [{ out := Output.None, state := ConnTState.Closed 0,
                     hasEvents := false, mints := 0 }],
    curState := ConnTState.Init, curEvents := false, odcid := none, log := [] }

def hdrVnW : PacketHdr :=
  { tbyte := 0, tipe := PacketType.Handshake, version := some 99,
    dcid := [222, 173, 190, 239], scid := some [202, 254], pn := 0, epoch := 0 }

def hdrEmptyTokW : PacketHdr :=
  { tbyte := 0, tipe := PacketType.Initial [], version := some 1,
    dcid := [17, 34, 51, 68], scid := some [202, 254], pn := 0, epoch := 0 }

def hdrTokW : PacketHdr :=
  { tbyte := 0, tipe := PacketType.Initial [1, 2, 3, 17, 34, 51, 68],
    version := some 1, dcid := [77], scid := some [202, 254],
    pn := 0, epoch := 0 }

def hdrHitW : PacketHdr :=
  { tbyte := 0, tipe := PacketType.Short, version := none, dcid := [5],
    scid := none, pn := 0, epoch := 0 }

def envVnW : Env :=
  { decode := fun _ => some hdrVnW, encVn := fun _ => [7],
    encRetry := fun _ => [8], mint := fun n => [42 + n],
    newServer := fun _ => some c0W }

def envAW : Env := { envVnW with decode := fun _ => some hdrEmptyTokW }

def envBW : Env := { envVnW with decode := fun _ => some hdrTokW }

def envHitW : Env := { envVnW with decode := fun _ => some hdrHitW }

def envNilW : Env := { envVnW with mint := fun _ => [] }

def dgW : Datagram :=
  { source := 5, destination := 6, payload := List.replicate 1200 0 }

def dgSmallW : Datagram := { source := 5, destination := 6, payload := [9] }

def sNewW : Server := Server.new 1

def sRetryW : Server := { Server.new 1 with require_retry := true }

def sHitW : Server :=
  { Server.new 1 with heap := [(0, { c := c0W, last_timer := 10 })],
                      connections := [([5], 0)], nextRef := 1 }

def sTimW : Server :=
  { Server.new 1 with heap := [(0, { c := cCbW, last_timer := 10 })],
                      timers := [(10, 0)], nextRef := 1 }

def sIdleW : Server :=
  { Server.new 1 with heap := [(0, { c := c0W, last_timer := 10 })],
                      timers := [(10, 0)], nextRef := 1 }

def sCloseW : Server :=
  { Server.new 1 with heap := [(0, { c := cClW, last_timer := 10 })],
                      connections := [([5], 0)], nextRef := 1 }

def pcHitW : Option (Server × Option Datagram) :=
  process_connection envHitW sHitW 0 (some dgSmallW) 7

def sHitResW : Server := (pcHitW.getD (Server.new 0, none)).1

def accBW : Option (Server × Option Datagram) :=
  accept_connection envBW sRetryW (some [17, 34, 51, 68]) dgW 50

def sAccBW : Server := (accBW.getD (Server.new 0, none)).1

def pcClW : Option (Server × Option Datagram) :=
  process_connection envVnW sCloseW 0 none 7

def sClResW : Server := (pcClW.getD (Server.new 0, none)).1

def scsClResW : ServerConnectionState :=
  (alookup sClResW.heap 0).getD { c := c0W, last_timer := 0 }

def pcTimW : Option (Server × Option Datagram) :=
  process_connection envVnW sTimW 0 none 7

def sTimResW : Server := (pcTimW.getD (Server.new 0, none)).1

/-! ### Basic lemmas about the helpers -/

@[simp] lemma alookup_nil {α β : Type} [DecidableEq α] (k : α) :
    alookup ([] : List (α × β)) k = none := rfl

@[simp] lemma alookup_cons {α β : Type} [DecidableEq α] (e : α × β)
    (l : List (α × β)) (k : α) :
    alookup (e :: l) k = if e.1 = k then some e.2 else alookup l k := rfl

lemma alookup_some_mem {α β : Type} [DecidableEq α] {l : List (α × β)} {k : α}
    {v : β} (h : alookup l k = some v) : (k, v) ∈ l := by
  induction l with
  | nil => simp at h
  | cons e rest ih =>
    rw [alookup_cons] at h
    by_cases he : e.1 = k
    · rw [if_pos he] at h
      injection h with h2
      cases e
      cases he
      cases h2
      exact List.mem_cons_self _ _
    · rw [if_neg he] at h
      exact List.mem_cons_of_mem _ (ih h)

lemma alookup_heapSet_self (h : List (Nat × ServerConnectionState)) (r : Nat)
    (v : ServerConnectionState) :
    alookup (heapSet h r v) r = (alookup h r).map fun _ => v := by
  induction h with
  | nil => rfl
  | cons e rest ih =>
    simp only [heapSet, List.map_cons] at ih ⊢
    by_cases he : e.1 = r
    · simp [he]
    · simp [he, ih]

lemma alookup_heapSet_ne (h : List (Nat × ServerConnectionState)) {r r' : Nat}
    (v : ServerConnectionState) (hne : r' ≠ r) :
    alookup (heapSet h r v) r' = alookup h r' := by
  induction h with
  | nil => rfl
  | cons e rest ih =>
    simp only [heapSet, List.map_cons] at ih ⊢
    by_cases he : e.1 = r
    · simp [he, Ne.symm hne, ih]
    · simp [he, ih]

lemma mem_heapSet {h : List (Nat × ServerConnectionState)} {r : Nat}
    {v : ServerConnectionState} {p : Nat × ServerConnectionState}
    (hp : p ∈ heapSet h r v) : p = (r, v) ∨ p ∈ h := by
  simp only [heapSet, List.mem_map] at hp
  obtain ⟨e, he, hr⟩ := hp
  by_cases h1 : e.1 = r
  · left
    rw [if_pos h1] at hr
    exact hr.symm
  · right
    rw [if_neg h1] at hr
    exact hr ▸ he

lemma Connection.process_log (c : Connection) (d : Option Datagram) (now : Nat) :
    (Connection.process c d now).1.log = c.log ++ [(d, now)] := by
  rcases c with ⟨sr, st, ev, od, lg⟩
  cases sr <;> rfl

lemma Connection.process_odcid (c : Connection) (d : Option Datagram) (now : Nat) :
    (Connection.process c d now).1.odcid = c.odcid := by
  rcases c with ⟨sr, st, ev, od, lg⟩
  cases sr <;> rfl

lemma Output.dgram_eq_none {out : Output} (h : out.dgram = none) :
    ∀ d, out ≠ Output.Datagram d := by
  intro d hc
  subst hc
  simp [Output.dgram] at h

/-! ### Structure of `process_connection` -/

lemma process_connection_elim {env : Env} {s : Server} {r : Nat}
    {dgram : Option Datagram} {now : Nat} {s' : Server} {d : Option Datagram}
    (h : process_connection env s r dgram now = some (s', d)) :
    ∃ scs cc reg,
      alookup s.heap r = some scs ∧
      doMints env r (Connection.process scs.c dgram now).2.2
        s.cidCounter s.connections = some (cc, reg) ∧
      s' = pcFinish s r scs (Connection.process scs.c dgram now).1
             (Connection.process scs.c dgram now).2.1 cc reg now ∧
      d = (Connection.process scs.c dgram now).2.1.dgram := by
  unfold process_connection at h
  split at h
  · exact absurd h (by simp)
  · rename_i scs hsc
    split at h
    · exact absurd h (by simp)
    · rename_i cc reg hm
      rw [Option.some.injEq, Prod.mk.injEq] at h
      exact ⟨scs, cc, reg, hsc, hm, h.1.symm, h.2.symm⟩

lemma process_connection_eq {env : Env} {s : Server} {r : Nat}
    {dgram : Option Datagram} {now : Nat} {scs : ServerConnectionState}
    {cc : Nat} {reg : List (ConnectionId × Nat)}
    (hsc : alookup s.heap r = some scs)
    (hm : doMints env r (Connection.process scs.c dgram now).2.2
            s.cidCounter s.connections = some (cc, reg)) :
    process_connection env s r dgram now =
      some (pcFinish s r scs (Connection.process scs.c dgram now).1
              (Connection.process scs.c dgram now).2.1 cc reg now,
            (Connection.process scs.c dgram now).2.1.dgram) := by
  unfold process_connection
  split
  · simp_all
  · rename_i scs2 hsc2
    rw [hsc] at hsc2
    injection hsc2 with hsc2
    subst hsc2
    split
    · simp_all
    · rename_i cc2 reg2 hm2
      rw [hm] at hm2
      injection hm2 with hm2
      rw [Prod.mk.injEq] at hm2
      obtain ⟨rfl, rfl⟩ := hm2
      rfl

@[simp] lemma removeTimer_heap (s : Server) (r : Nat) :
    (removeTimer s r).heap = s.heap := by
  unfold removeTimer; split <;> rfl

@[simp] lemma removeTimer_waiting (s : Server) (r : Nat) :
    (removeTimer s r).waiting = s.waiting := by
  unfold removeTimer; split <;> rfl

@[simp] lemma removeTimer_connections (s : Server) (r : Nat) :
    (removeTimer s r).connections = s.connections := by
  unfold removeTimer; split <;> rfl

@[simp] lemma removeTimer_active (s : Server) (r : Nat) :
    (removeTimer s r).active = s.active := by
  unfold removeTimer; split <;> rfl

@[simp] lemma removeTimer_nextRef (s : Server) (r : Nat) :
    (removeTimer s r).nextRef = s.nextRef := by
  unfold removeTimer; split <;> rfl

@[simp] lemma removeTimer_cidCounter (s : Server) (r : Nat) :
    (removeTimer s r).cidCounter = s.cidCounter := by
  unfold removeTimer; split <;> rfl

@[simp] lemma removeTimer_version (s : Server) (r : Nat) :
    (removeTimer s r).version = s.version := by
  unfold removeTimer; split <;> rfl

lemma removeTimer_timers {s : Server} {r : Nat} {scs : ServerConnectionState}
    (hsc : alookup s.heap r = some scs) :
    (removeTimer s r).timers =
      s.timers.filter fun e => decide (¬(e.1 = scs.last_timer ∧ e.2 = r)) := by
  unfold removeTimer
  split <;> simp_all

lemma removeTimer_eq {s : Server} {r : Nat} {scs : ServerConnectionState}
    (hsc : alookup s.heap r = some scs) :
    removeTimer s r =
      { s with timers :=
          s.timers.filter fun e => decide (¬(e.1 = scs.last_timer ∧ e.2 = r)) } := by
  unfold removeTimer
  split <;> simp_all

lemma removeTimer_timers_sub (s : Server) (r : Nat) :
    ∀ e ∈ (removeTimer s r).timers, e ∈ s.timers := by
  unfold removeTimer
  split
  · intro e he; exact he
  · intro e he; exact (List.mem_filter.mp he).1

lemma pcFinish_nextRef (s : Server) (r : Nat) (scs : ServerConnectionState)
    (c' : Connection) (out : Output) (cc : Nat)
    (reg : List (ConnectionId × Nat)) (now : Nat) :
    (pcFinish s r scs c' out cc reg now).nextRef = s.nextRef := by
  unfold pcFinish applyOutput
  cases out <;> split_ifs <;> simp [apply_ite]

lemma pcFinish_version (s : Server) (r : Nat) (scs : ServerConnectionState)
    (c' : Connection) (out : Output) (cc : Nat)
    (reg : List (ConnectionId × Nat)) (now : Nat) :
    (pcFinish s r scs c' out cc reg now).version = s.version := by
  unfold pcFinish applyOutput
  cases out <;> split_ifs <;> simp [apply_ite]

lemma pcFinish_waiting_of_none (s : Server) (r : Nat)
    (scs : ServerConnectionState) (c' : Connection) {out : Output} (cc : Nat)
    (reg : List (ConnectionId × Nat)) (now : Nat) (hout : out.dgram = none) :
    (pcFinish s r scs c' out cc reg now).waiting = s.waiting := by
  unfold pcFinish applyOutput
  cases out with
  | Datagram d => simp [Output.dgram] at hout
  | Callback delay => split_ifs <;> simp [apply_ite]
  | None => split_ifs <;> simp [apply_ite]

lemma pcFinish_heap_self {s : Server} {r : Nat} {scs : ServerConnectionState}
    (c' : Connection) (out : Output) (cc : Nat)
    (reg : List (ConnectionId × Nat)) (now : Nat)
    (hsc : alookup s.heap r = some scs) :
    ∃ lt, alookup (pcFinish s r scs c' out cc reg now).heap r =
      some { c := c', last_timer := lt } := by
  unfold pcFinish applyOutput
  cases out with
  | Datagram d =>
    refine ⟨scs.last_timer, ?_⟩
    split_ifs <;> simp [alookup_heapSet_self, hsc]
  | Callback delay =>
    by_cases hnext : now + delay = scs.last_timer
    · refine ⟨scs.last_timer, ?_⟩
      split_ifs <;> simp_all [apply_ite, alookup_heapSet_self, hsc]
    · refine ⟨now + delay, ?_⟩
      split_ifs <;> simp_all [apply_ite, alookup_heapSet_self, hsc]
  | None =>
    refine ⟨scs.last_timer, ?_⟩
    split_ifs <;> simp [alookup_heapSet_self, hsc]

lemma pcFinish_heap_ne (s : Server) (r : Nat) (scs : ServerConnectionState)
    (c' : Connection) (out : Output) (cc : Nat)
    (reg : List (ConnectionId × Nat)) (now : Nat) {r' : Nat} (hne : r' ≠ r) :
    alookup (pcFinish s r scs c' out cc reg now).heap r' = alookup s.heap r' := by
  unfold pcFinish applyOutput
  cases out with
  | Datagram d => split_ifs <;> simp [alookup_heapSet_ne _ _ hne]
  | Callback delay =>
    by_cases hnext : now + delay = scs.last_timer <;>
      split_ifs <;> simp_all [apply_ite, alookup_heapSet_ne _ _ hne]
  | None => split_ifs <;> simp [alookup_heapSet_ne _ _ hne]

@[simp] lemma applyOutput_nextRef (t : Server) (r : Nat) (c' : Connection)
    (lt : Nat) (out : Output) (now : Nat) :
    (applyOutput t r c' lt out now).nextRef = t.nextRef := by
  cases out <;> simp [applyOutput, apply_ite]

@[simp] lemma applyOutput_connections (t : Server) (r : Nat) (c' : Connection)
    (lt : Nat) (out : Output) (now : Nat) :
    (applyOutput t r c' lt out now).connections = t.connections := by
  cases out <;> simp [applyOutput, apply_ite]

@[simp] lemma applyOutput_active (t : Server) (r : Nat) (c' : Connection)
    (lt : Nat) (out : Output) (now : Nat) :
    (applyOutput t r c' lt out now).active = t.active := by
  cases out <;> simp [applyOutput, apply_ite]

@[simp] lemma applyOutput_cidCounter (t : Server) (r : Nat) (c' : Connection)
    (lt : Nat) (out : Output) (now : Nat) :
    (applyOutput t r c' lt out now).cidCounter = t.cidCounter := by
  cases out <;> simp [applyOutput, apply_ite]

lemma ServerInvP_of_eq {s s' : Server} (h1 : s'.heap = s.heap)
    (h2 : s'.nextRef = s.nextRef) (h3 : s'.timers = s.timers)
    (h : ServerInvP s) : ServerInvP s' := by
  unfold ServerInvP at *
  rw [h1, h2, h3]
  exact h

lemma heapSet_keys_lt {h : List (Nat × ServerConnectionState)} {N r : Nat}
    {v : ServerConnectionState} (hh : ∀ p ∈ h, p.1 < N) (hr : r < N) :
    ∀ p ∈ heapSet h r v, p.1 < N := by
  intro p hp
  rcases mem_heapSet hp with rfl | hp'
  · exact hr
  · exact hh p hp'

lemma timersOfConn_append (l1 l2 : List (Nat × Nat)) (x : Nat) :
    timersOfConn (l1 ++ l2) x = timersOfConn l1 x ++ timersOfConn l2 x := by
  simp [timersOfConn, List.filter_append]

lemma timersOfConn_filter_sublist (l : List (Nat × Nat)) (q : Nat × Nat → Bool)
    (x : Nat) :
    List.Sublist (timersOfConn (l.filter q) x) (timersOfConn l x) :=
  List.Sublist.filter _ (List.filter_sublist l)

/-- Part 3 of the invariant survives a heap write that keeps `last_timer`. -/
lemma part3_heapSet {h : List (Nat × ServerConnectionState)} {r : Nat}
    {scs : ServerConnectionState} (v : ServerConnectionState)
    (hsc : alookup h r = some scs)
    (hlt : v.last_timer = scs.last_timer) {T : List (Nat × Nat)}
    (h3 : ∀ e ∈ T, (alookup h e.2).map (fun x => x.last_timer) = some e.1) :
    ∀ e ∈ T, (alookup (heapSet h r v) e.2).map (fun x => x.last_timer)
      = some e.1 := by
  intro e he
  by_cases her : e.2 = r
  · have hold := h3 e he
    rw [her, hsc] at hold
    rw [her, alookup_heapSet_self, hsc]
    simp at hold ⊢
    rw [hlt, hold]
  · rw [alookup_heapSet_ne _ _ her]
    exact h3 e he

/-- `remove_timer` deletes every wheel entry of the connection whose
deadline is its `last_timer`; under part 3 of the invariant that is all of
them. -/
lemma timersOfConn_removed {h : List (Nat × ServerConnectionState)}
    {T : List (Nat × Nat)} {r lt : Nat} {v : ServerConnectionState}
    (hsc : alookup h r = some v) (hvlt : v.last_timer = lt)
    (h3 : ∀ e ∈ T, (alookup h e.2).map (fun x => x.last_timer) = some e.1) :
    timersOfConn (T.filter fun e => decide (¬(e.1 = lt ∧ e.2 = r))) r = [] := by
  rw [timersOfConn, List.filter_eq_nil_iff]
  intro e he
  rcases List.mem_filter.mp he with ⟨hmem, hcond⟩
  simp at hcond ⊢
  intro her
  have hlt1 := h3 e hmem
  rw [her, hsc] at hlt1
  simp at hlt1
  rcases hcond with hc | hc
  · exact hc (by rw [← hlt1, hvlt])
  · exact hc her

lemma applyOutput_Datagram (t : Server) (r : Nat) (c' : Connection) (lt : Nat)
    (d : Datagram) (now : Nat) :
    applyOutput t r c' lt (Output.Datagram d) now =
      { t with waiting := t.waiting ++ [r] } := rfl

lemma applyOutput_Callback (t : Server) (r : Nat) (c' : Connection) (lt : Nat)
    (delay : Nat) (now : Nat) :
    applyOutput t r c' lt (Output.Callback delay) now =
      if now + delay = lt then t
      else
        { removeTimer t r with
            heap := heapSet (removeTimer t r).heap r
              { c := c', last_timer := now + delay },
            timers := (removeTimer t r).timers ++ [(now + delay, r)] } := rfl

lemma applyOutput_None (t : Server) (r : Nat) (c' : Connection) (lt : Nat)
    (now : Nat) :
    applyOutput t r c' lt Output.None now = removeTimer t r := rfl

/-- The invariant is preserved by the output-classification stage, starting
from the heap write that installs the stepped connection. -/
lemma applyOutput_inv {s : Server} {r : Nat} {scs : ServerConnectionState}
    (c' : Connection) (cc : Nat) (reg : List (ConnectionId × Nat))
    (out : Output) (now : Nat)
    (hsc : alookup s.heap r = some scs) (hInv : ServerInvP s) :
    ServerInvP (applyOutput
      { s with cidCounter := cc, connections := reg,
               heap := heapSet s.heap r { c := c', last_timer := scs.last_timer } }
      r c' scs.last_timer out now) := by
  obtain ⟨h1, h2, h3⟩ := hInv
  have hrmem := alookup_some_mem hsc
  have hrlt : r < s.nextRef := h1 _ hrmem
  have hkeys : ∀ p ∈ heapSet s.heap r { c := c', last_timer := scs.last_timer },
      p.1 < s.nextRef := heapSet_keys_lt h1 hrlt
  have hpart3 :
      ∀ e ∈ s.timers,
        (alookup (heapSet s.heap r { c := c', last_timer := scs.last_timer })
          e.2).map (fun x => x.last_timer) = some e.1 :=
    part3_heapSet { c := c', last_timer := scs.last_timer } hsc rfl h3
  have hsc1 : alookup (heapSet s.heap r
        { c := c', last_timer := scs.last_timer }) r
      = some { c := c', last_timer := scs.last_timer } := by
    rw [alookup_heapSet_self, hsc]; rfl
  cases out with
  | Datagram d =>
    rw [applyOutput_Datagram]
    exact ⟨hkeys, h2, hpart3⟩
  | Callback delay =>
    rw [applyOutput_Callback]
    by_cases hnext : now + delay = scs.last_timer
    · rw [if_pos hnext]
      exact ⟨hkeys, h2, hpart3⟩
    · rw [if_neg hnext, removeTimer_eq hsc1]
      dsimp only
      have hrem : timersOfConn
          (s.timers.filter fun e =>
            decide (¬(e.1 = scs.last_timer ∧ e.2 = r))) r = [] :=
        timersOfConn_removed hsc1 rfl hpart3
      refine ⟨?_, ?_, ?_⟩
      · exact heapSet_keys_lt hkeys hrlt
      · intro e he
        rw [timersOfConn_append]
        by_cases hx : e.2 = r
        · rw [hx, hrem]
          simp [timersOfConn]
        · have h0 : timersOfConn [(now + delay, r)] e.2 = [] := by
            simp [timersOfConn]
            intro hc
            exact absurd hc.symm hx
          rw [h0, List.append_nil]
          rcases List.mem_append.mp he with he' | he'
          · have hsub := timersOfConn_filter_sublist s.timers
              (fun e => decide (¬(e.1 = scs.last_timer ∧ e.2 = r))) e.2
            have hmem : e ∈ s.timers := (List.mem_filter.mp he').1
            exact le_trans hsub.length_le (h2 e hmem)
          · simp at he'
            rw [he'] at hx
            exact absurd rfl hx
      · intro e he
        rcases List.mem_append.mp he with he' | he'
        · by_cases hx : e.2 = r
          · exfalso
            have hin : e ∈ timersOfConn
                (s.timers.filter fun e =>
                  decide (¬(e.1 = scs.last_timer ∧ e.2 = r))) r :=
              List.mem_filter.mpr ⟨he', by simp [hx]⟩
            rw [hrem] at hin
            simp at hin
          · rw [alookup_heapSet_ne _ _ hx]
            have hmem : e ∈ s.timers := (List.mem_filter.mp he').1
            exact hpart3 e hmem
        · simp at he'
          subst he'
          dsimp only
          rw [alookup_heapSet_self, hsc1]
          rfl
  | None =>
    rw [applyOutput_None, removeTimer_eq hsc1]
    dsimp only
    refine ⟨hkeys, ?_, ?_⟩
    · intro e he
      have hmem : e ∈ s.timers := (List.mem_filter.mp he).1
      have hsub := timersOfConn_filter_sublist s.timers
        (fun e => decide (¬(e.1 = scs.last_timer ∧ e.2 = r))) e.2
      exact le_trans hsub.length_le (h2 e hmem)
    · intro e he
      exact hpart3 e (List.mem_filter.mp he).1

lemma pcFinish_inv {s : Server} {r : Nat} {scs : ServerConnectionState}
    (c' : Connection) (out : Output) (cc : Nat)
    (reg : List (ConnectionId × Nat)) (now : Nat)
    (hsc : alookup s.heap r = some scs) (hInv : ServerInvP s) :
    ServerInvP (pcFinish s r scs c' out cc reg now) := by
  refine ServerInvP_of_eq ?_ ?_ ?_ (applyOutput_inv c' cc reg out now hsc hInv)
  · unfold pcFinish; split_ifs <;> rfl
  · unfold pcFinish; split_ifs <;> rfl
  · unfold pcFinish; split_ifs <;> rfl

lemma pcFinish_timers (s : Server) (r : Nat) (scs : ServerConnectionState)
    (c' : Connection) (out : Output) (cc : Nat)
    (reg : List (ConnectionId × Nat)) (now : Nat) :
    (pcFinish s r scs c' out cc reg now).timers =
      (applyOutput
        { s with cidCounter := cc, connections := reg,
                 heap := heapSet s.heap r { scs with c := c' } }
        r c' scs.last_timer out now).timers := by
  unfold pcFinish; split_ifs <;> rfl

lemma applyOutput_timers_mem (t : Server) (r : Nat) (c' : Connection)
    (lt : Nat) (out : Output) (now : Nat) :
    ∀ e ∈ (applyOutput t r c' lt out now).timers,
      e ∈ t.timers ∨ now ≤ e.1 := by
  cases out with
  | Datagram d => rw [applyOutput_Datagram]; exact fun e he => Or.inl he
  | Callback delay =>
    rw [applyOutput_Callback]
    split_ifs with hnext
    · exact fun e he => Or.inl he
    · intro e he
      dsimp only at he
      rcases List.mem_append.mp he with he' | he'
      · exact Or.inl (removeTimer_timers_sub t r e he')
      · simp at he'
        subst he'
        exact Or.inr (Nat.le_add_right now delay)
  | None =>
    rw [applyOutput_None]
    exact fun e he => Or.inl (removeTimer_timers_sub t r e he)

lemma pcFinish_timers_mem (s : Server) (r : Nat) (scs : ServerConnectionState)
    (c' : Connection) (out : Output) (cc : Nat)
    (reg : List (ConnectionId × Nat)) (now : Nat) :
    ∀ e ∈ (pcFinish s r scs c' out cc reg now).timers,
      e ∈ s.timers ∨ now ≤ e.1 := by
  rw [pcFinish_timers]
  exact applyOutput_timers_mem _ _ _ _ _ _

lemma pcFinish_connections_mem (s : Server) (r : Nat)
    (scs : ServerConnectionState) (c' : Connection) (out : Output) (cc : Nat)
    (reg : List (ConnectionId × Nat)) (now : Nat) :
    ∀ p ∈ (pcFinish s r scs c' out cc reg now).connections, p ∈ reg := by
  unfold pcFinish
  split_ifs <;> intro p hp <;>
    simp only [applyOutput_connections] at hp ⊢ <;>
    first
      | exact (List.mem_filter.mp hp).1
      | exact hp

lemma filter_filter_ne_eq_nil (l : List (ConnectionId × Nat)) (r : Nat) :
    ((l.filter fun p => decide (p.2 ≠ r)).filter fun p => decide (p.2 = r))
      = [] := by
  rw [List.filter_eq_nil_iff]
  intro p hp
  have := (List.mem_filter.mp hp).2
  simp at this ⊢
  exact this

lemma pcFinish_closed_filter (s : Server) (r : Nat)
    (scs : ServerConnectionState) {c' : Connection} (out : Output) (cc : Nat)
    (reg : List (ConnectionId × Nat)) (now : Nat)
    (hcl : c'.curState.isClosed = true) :
    (pcFinish s r scs c' out cc reg now).connections.filter
      (fun p => decide (p.2 = r)) = [] := by
  unfold pcFinish
  rw [if_pos hcl]
  split_ifs <;> exact filter_filter_ne_eq_nil _ r

lemma wrapperGenerateCid_elim {env : Env} {cc : Nat}
    {reg : List (ConnectionId × Nat)} {r : Nat} {cid : ConnectionId}
    {cc' : Nat} {reg' : List (ConnectionId × Nat)}
    (hw : wrapperGenerateCid env cc reg r = some (cid, cc', reg')) :
    cid = env.mint cc ∧ cid ≠ [] ∧ cc' = cc + 1 ∧
    reg' = (cid, r) :: reg.filter (fun e => decide (e.1 ≠ cid)) ∧
    ∀ v, alookup reg cid = some v → v = r := by
  by_cases hemp : env.mint cc = []
  · unfold wrapperGenerateCid at hw
    rw [if_pos hemp] at hw
    exact absurd hw (by simp)
  · unfold wrapperGenerateCid at hw
    rw [if_neg hemp] at hw
    split at hw
    · rename_i v hv
      by_cases hvr : v = r
      · rw [if_pos hvr] at hw
        rw [Option.some.injEq, Prod.mk.injEq, Prod.mk.injEq] at hw
        obtain ⟨rfl, rfl, rfl⟩ := hw
        refine ⟨rfl, hemp, rfl, rfl, ?_⟩
        intro v' hv'
        rw [hv] at hv'
        injection hv' with hv'
        rw [← hv']
        exact hvr
      · rw [if_neg hvr] at hw
        exact absurd hw (by simp)
    · rename_i hv
      rw [Option.some.injEq, Prod.mk.injEq, Prod.mk.injEq] at hw
      obtain ⟨rfl, rfl, rfl⟩ := hw
      refine ⟨rfl, hemp, rfl, rfl, ?_⟩
      intro v' hv'
      rw [hv] at hv'
      exact absurd hv' (by simp)

lemma doMints_mem {env : Env} {r : Nat} :
    ∀ {n cc reg cc' reg'}, doMints env r n cc reg = some (cc', reg') →
      ∀ p ∈ reg', p ∈ reg ∨ p.2 = r := by
  intro n
  induction n with
  | zero =>
    intro cc reg cc' reg' h p hp
    unfold doMints at h
    rw [Option.some.injEq, Prod.mk.injEq] at h
    rw [← h.2] at hp
    exact Or.inl hp
  | succ n ih =>
    intro cc reg cc' reg' h p hp
    unfold doMints at h
    split at h
    · exact absurd h (by simp)
    · rename_i cid cc1 reg1 hw
      rcases ih h p hp with hp1 | hp2
      · obtain ⟨hcid, hne, hccs, hreg, hold⟩ := wrapperGenerateCid_elim hw
        rw [hreg] at hp1
        rcases List.mem_cons.mp hp1 with rfl | hp1'
        · exact Or.inr rfl
        · exact Or.inl (List.mem_filter.mp hp1').1
      · exact Or.inr hp2

lemma process_connection_inv {env : Env} {s : Server} {r : Nat}
    {dgram : Option Datagram} {now : Nat} {s' : Server} {d : Option Datagram}
    (h : process_connection env s r dgram now = some (s', d))
    (hInv : ServerInvP s) : ServerInvP s' := by
  obtain ⟨scs, cc, reg, hsc, hm, rfl, rfl⟩ := process_connection_elim h
  exact pcFinish_inv _ _ _ _ _ hsc hInv

lemma process_connection_regInv {env : Env} {s : Server} {r : Nat}
    {dgram : Option Datagram} {now : Nat} {s' : Server} {d : Option Datagram}
    (h : process_connection env s r dgram now = some (s', d))
    (hreg : RegistryInvP s) : RegistryInvP s' := by
  obtain ⟨scs, cc, reg, hsc, hm, rfl, rfl⟩ := process_connection_elim h
  intro p hp
  have hp_reg : p ∈ reg := pcFinish_connections_mem _ _ _ _ _ _ _ _ p hp
  have hp_src := doMints_mem hm p hp_reg
  by_cases hpr : p.2 = r
  · cases hcl : ((Connection.process scs.c dgram now).1).curState.isClosed with
    | true =>
      exfalso
      have hnil := pcFinish_closed_filter s r scs
        (Connection.process scs.c dgram now).2.1 cc reg now hcl
      have hpin : p ∈ (pcFinish s r scs (Connection.process scs.c dgram now).1
          (Connection.process scs.c dgram now).2.1 cc reg now).connections.filter
          (fun q => decide (q.2 = r)) :=
        List.mem_filter.mpr ⟨hp, by simp [hpr]⟩
      rw [hnil] at hpin
      simp at hpin
    | false =>
      obtain ⟨lt, hheap⟩ := pcFinish_heap_self
        (Connection.process scs.c dgram now).1
        (Connection.process scs.c dgram now).2.1 cc reg now hsc
      rw [hpr, hheap]
      simp [hcl]
  · rw [pcFinish_heap_ne _ _ _ _ _ _ _ _ hpr]
    rcases hp_src with hmem | hpr2
    · exact hreg p hmem
    · exact absurd hpr2 hpr

lemma process_connection_closed_purge {env : Env} {s : Server} {r : Nat}
    {dgram : Option Datagram} {now : Nat} {s' : Server} {d : Option Datagram}
    {scs' : ServerConnectionState}
    (h : process_connection env s r dgram now = some (s', d))
    (hheap : alookup s'.heap r = some scs')
    (hcl : scs'.c.curState.isClosed = true) :
    s'.connections.filter (fun p => decide (p.2 = r)) = [] := by
  obtain ⟨scs, cc, reg, hsc, hm, rfl, rfl⟩ := process_connection_elim h
  obtain ⟨lt, hh⟩ := pcFinish_heap_self (Connection.process scs.c dgram now).1
    (Connection.process scs.c dgram now).2.1 cc reg now hsc
  rw [hh] at hheap
  injection hheap with hheap
  rw [← hheap] at hcl
  exact pcFinish_closed_filter s r scs _ cc reg now hcl

lemma process_connection_waiting_none {env : Env} {s : Server} {r : Nat}
    {dgram : Option Datagram} {now : Nat} {s' : Server}
    (h : process_connection env s r dgram now = some (s', none)) :
    s'.waiting = s.waiting := by
  obtain ⟨scs, cc, reg, hsc, hm, rfl, hd⟩ := process_connection_elim h
  exact pcFinish_waiting_of_none _ _ _ _ _ _ _ hd.symm

/-- Unfolding of `process_input` once the header is decoded. -/
lemma process_input_eq {env : Env} {s : Server} {dgram : Datagram} {now : Nat}
    {hdr : PacketHdr} (hdec : env.decode dgram.payload = some hdr) :
    process_input env s dgram now =
      match alookup s.connections hdr.dcid with
      | some r => process_connection env s r (some dgram) now
      | none =>
        if hdr.tipe = PacketType.Short then some (s, none)
        else if dgram.payload.length < MIN_INITIAL_PACKET_SIZE then
          some (s, none)
        else if hdr.version ≠ some s.version then
          match create_vn s.version env.encVn hdr dgram with
          | none => none
          | some d => some (s, some d)
        else handle_initial env s hdr dgram now := by
  unfold process_input
  split
  · rename_i hd
    rw [hdec] at hd
    exact absurd hd (by simp)
  · rename_i hdr2 hd
    rw [hdec] at hd
    injection hd with hd
    subst hd
    rfl

lemma validate_empty (rr : Bool) {hdr : PacketHdr}
    (ht : hdr.tipe = PacketType.Initial []) :
    RetryToken.validate rr hdr =
      some (if rr then RetryTokenResult.Validate else RetryTokenResult.Pass) := by
  obtain ⟨tb, tipe, ver, dcid, scid, pn, ep⟩ := hdr
  simp only at ht
  subst ht
  rfl

lemma validate_prefixed (rr : Bool) {hdr : PacketHdr} (dcid0 : ConnectionId)
    (ht : hdr.tipe = PacketType.Initial (FIXED_TOKEN ++ dcid0)) :
    RetryToken.validate rr hdr = some (RetryTokenResult.Valid dcid0) := by
  obtain ⟨tb, tipe, ver, dcid, scid, pn, ep⟩ := hdr
  simp only at ht
  subst ht
  unfold RetryToken.validate
  simp [FIXED_TOKEN, List.take, List.drop]

lemma handle_initial_valid {env : Env} {s : Server} {hdr : PacketHdr}
    {dgram : Datagram} {now : Nat} {dcid0 : ConnectionId}
    (hv : RetryToken.validate s.require_retry hdr
      = some (RetryTokenResult.Valid dcid0)) :
    handle_initial env s hdr dgram now =
      accept_connection env s (some dcid0) dgram now := by
  unfold handle_initial
  split
  · rename_i hv2
    rw [hv] at hv2
    exact absurd hv2 (by simp)
  · rename_i hv2
    rw [hv] at hv2
    exact absurd hv2 (by simp)
  · rename_i hv2
    rw [hv] at hv2
    exact absurd hv2 (by simp)
  · rename_i dcid2 hv2
    rw [hv] at hv2
    injection hv2 with hv2
    injection hv2 with hv2
    subst hv2
    rfl
  · rename_i hv2
    rw [hv] at hv2
    exact absurd hv2 (by simp)

lemma handle_initial_validate {env : Env} {s : Server} {hdr : PacketHdr}
    {dgram : Datagram} {now : Nat} {scid0 : ConnectionId}
    (hv : RetryToken.validate s.require_retry hdr
      = some RetryTokenResult.Validate)
    (hscid : hdr.scid = some scid0) :
    handle_initial env s hdr dgram now =
      some ({ s with cidCounter := s.cidCounter + 1 },
            some { source := dgram.destination, destination := dgram.source,
                   payload := env.encRetry
                     { tbyte := 0,
                       tipe := PacketType.Retry hdr.dcid
                         (RetryToken.generate_token hdr.dcid),
                       version := some s.version, dcid := scid0,
                       scid := some (env.mint s.cidCounter),
                       pn := 0, epoch := 0 } }) := by
  unfold handle_initial
  split
  · rename_i hv2
    rw [hv] at hv2
    exact absurd hv2 (by simp)
  · rename_i hv2
    rw [hv] at hv2
    exact absurd hv2 (by simp)
  · rename_i hv2
    rw [hv] at hv2
    exact absurd hv2 (by simp)
  · rename_i dcid2 hv2
    rw [hv] at hv2
    exact absurd hv2 (by simp)
  · split
    · rename_i hs2
      rw [hscid] at hs2
      exact absurd hs2 (by simp)
    · rename_i scid2 hs2
      rw [hscid] at hs2
      injection hs2 with hs2
      subst hs2
      rfl

lemma accept_connection_inv {env : Env} {s : Server} {odcid : Option ConnectionId}
    {dgram : Datagram} {now : Nat} {s' : Server} {d : Option Datagram}
    (h : accept_connection env s odcid dgram now = some (s', d))
    (hInv : ServerInvP s) : ServerInvP s' := by
  unfold accept_connection at h
  split at h
  · rw [Option.some.injEq, Prod.mk.injEq] at h
    rw [← h.1]
    exact hInv
  · rename_i c0 hc0
    refine process_connection_inv h ?_
    obtain ⟨h1, h2, h3⟩ := hInv
    refine ⟨?_, h2, ?_⟩
    · intro p hp
      rcases List.mem_cons.mp hp with rfl | hp'
      · exact Nat.lt_succ_self _
      · exact Nat.lt_succ_of_lt (h1 p hp')
    · intro e he
      have hold := h3 e he
      have hne : e.2 ≠ s.nextRef := by
        intro hc
        cases halk : alookup s.heap e.2 with
        | none => rw [halk] at hold; exact absurd hold (by simp)
        | some scs0 =>
          have hlt := h1 _ (alookup_some_mem halk)
          rw [hc] at hlt
          exact absurd hlt (lt_irrefl _)
      rw [alookup_cons, if_neg (fun hh => hne hh.symm)]
      exact hold

lemma handle_initial_inv {env : Env} {s : Server} {hdr : PacketHdr}
    {dgram : Datagram} {now : Nat} {s' : Server} {d : Option Datagram}
    (h : handle_initial env s hdr dgram now = some (s', d))
    (hInv : ServerInvP s) : ServerInvP s' := by
  unfold handle_initial at h
  split at h
  · exact absurd h (by simp)
  · rw [Option.some.injEq, Prod.mk.injEq] at h
    rw [← h.1]
    exact hInv
  · exact accept_connection_inv h hInv
  · exact accept_connection_inv h hInv
  · split at h
    · exact absurd h (by simp)
    · rw [Option.some.injEq, Prod.mk.injEq] at h
      rw [← h.1]
      exact ⟨hInv.1, hInv.2.1, hInv.2.2⟩

lemma process_input_inv {env : Env} {s : Server} {dgram : Datagram}
    {now : Nat} {s' : Server} {d : Option Datagram}
    (h : process_input env s dgram now = some (s', d))
    (hInv : ServerInvP s) : ServerInvP s' := by
  unfold process_input at h
  split at h
  · rw [Option.some.injEq, Prod.mk.injEq] at h
    rw [← h.1]
    exact hInv
  · split at h
    · exact process_connection_inv h hInv
    · split_ifs at h with hshort hsize hver
      · rw [Option.some.injEq, Prod.mk.injEq] at h
        rw [← h.1]
        exact hInv
      · rw [Option.some.injEq, Prod.mk.injEq] at h
        rw [← h.1]
        exact hInv
      · split at h
        · exact absurd h (by simp)
        · rw [Option.some.injEq, Prod.mk.injEq] at h
          rw [← h.1]
          exact hInv
      · exact handle_initial_inv h hInv

lemma takeNext_sublist :
    ∀ {T : List (Nat × Nat)} {now r : Nat} {T' : List (Nat × Nat)},
      takeNext T now = some (r, T') → List.Sublist T' T := by
  intro T
  induction T with
  | nil => intro now r T' h; exact absurd h (by simp [takeNext])
  | cons e rest ih =>
    intro now r T' h
    unfold takeNext at h
    split_ifs at h with he
    · rw [Option.some.injEq, Prod.mk.injEq] at h
      rw [← h.2]
      exact List.sublist_cons_self e rest
    · split at h
      · rename_i p hp
        rw [Option.some.injEq, Prod.mk.injEq] at h
        rw [← h.2]
        exact List.Sublist.cons₂ e (ih hp)
      · exact absurd h (by simp)

lemma takeNext_none_bound :
    ∀ {T : List (Nat × Nat)} {now : Nat}, takeNext T now = none →
      ∀ e ∈ T, now < e.1 := by
  intro T
  induction T with
  | nil => intro now _ e he; exact absurd he (by simp)
  | cons e0 rest ih =>
    intro now h e he
    unfold takeNext at h
    split_ifs at h with he0
    · split at h
      · exact absurd h (by simp)
      · rename_i hrest
        rcases List.mem_cons.mp he with rfl | he'
        · exact Nat.lt_of_not_le he0
        · exact ih hrest e he'

lemma ServerInvP_timers_sublist {s : Server} {T' : List (Nat × Nat)}
    (hsub : List.Sublist T' s.timers) (hInv : ServerInvP s) :
    ServerInvP { s with timers := T' } := by
  obtain ⟨h1, h2, h3⟩ := hInv
  refine ⟨h1, ?_, ?_⟩
  · intro e he
    have hle := (hsub.filter (fun e2 => decide (e2.2 = e.2))).length_le
    exact le_trans hle (h2 e (hsub.subset he))
  · intro e he
    exact h3 e (hsub.subset he)

lemma drainWaiting_inv {env : Env} {now : Nat} :
    ∀ {fuel : Nat} {s s' : Server} {d : Option Datagram},
      drainWaiting env now fuel s = some (s', d) → ServerInvP s →
      ServerInvP s' := by
  intro fuel
  induction fuel with
  | zero => intro s s' d h _; exact absurd h (by simp [drainWaiting])
  | succ fuel ih =>
    intro s s' d h hInv
    unfold drainWaiting at h
    split at h
    · rw [Option.some.injEq, Prod.mk.injEq] at h
      rw [← h.1]
      exact hInv
    · rename_i r rest hw
      split at h
      · exact absurd h (by simp)
      · rename_i s1 d1 hpc
        have hInv1 : ServerInvP s1 :=
          process_connection_inv hpc ⟨hInv.1, hInv.2.1, hInv.2.2⟩
        rw [Option.some.injEq, Prod.mk.injEq] at h
        rw [← h.1]
        exact hInv1
      · rename_i s1 hpc
        have hInv1 : ServerInvP s1 :=
          process_connection_inv hpc ⟨hInv.1, hInv.2.1, hInv.2.2⟩
        exact ih h hInv1

lemma drainTimers_inv {env : Env} {now : Nat} :
    ∀ {fuel : Nat} {s s' : Server} {d : Option Datagram},
      drainTimers env now fuel s = some (s', d) → ServerInvP s →
      ServerInvP s' := by
  intro fuel
  induction fuel with
  | zero => intro s s' d h _; exact absurd h (by simp [drainTimers])
  | succ fuel ih =>
    intro s s' d h hInv
    unfold drainTimers at h
    split at h
    · rw [Option.some.injEq, Prod.mk.injEq] at h
      rw [← h.1]
      exact hInv
    · rename_i r timers' htk
      have hInv0 : ServerInvP { s with timers := timers' } :=
        ServerInvP_timers_sublist (takeNext_sublist htk) hInv
      split at h
      · exact absurd h (by simp)
      · rename_i s1 d1 hpc
        have hInv1 : ServerInvP s1 := process_connection_inv hpc hInv0
        rw [Option.some.injEq, Prod.mk.injEq] at h
        rw [← h.1]
        exact hInv1
      · rename_i s1 hpc
        have hInv1 : ServerInvP s1 := process_connection_inv hpc hInv0
        exact ih h hInv1

lemma process_next_output_inv {env : Env} {s : Server} {now fuel : Nat}
    {s' : Server} {d : Option Datagram}
    (h : process_next_output env s now fuel = some (s', d))
    (hInv : ServerInvP s) : ServerInvP s' := by
  unfold process_next_output at h
  split at h
  · exact absurd h (by simp)
  · rename_i s1 d1 hw
    rw [Option.some.injEq, Prod.mk.injEq] at h
    rw [← h.1]
    exact drainWaiting_inv hw hInv
  · rename_i s1 hw
    exact drainTimers_inv h (drainWaiting_inv hw hInv)

lemma Server.process_inv {env : Env} {s : Server} {dgram : Option Datagram}
    {now fuel : Nat} {s' : Server} {out : Output}
    (h : Server.process env s dgram now fuel = some (s', out))
    (hInv : ServerInvP s) : ServerInvP s' := by
  unfold Server.process at h
  split at h
  · exact absurd h (by simp)
  · rename_i s1 d1 hin
    have hInv1 : ServerInvP s1 := by
      cases dgram with
      | none =>
        rw [Option.some.injEq, Prod.mk.injEq] at hin
        rw [← hin.1]
        exact hInv
      | some d0 => exact process_input_inv hin hInv
    rw [Option.some.injEq, Prod.mk.injEq] at h
    rw [← h.1]
    exact hInv1
  · rename_i s1 hin
    have hInv1 : ServerInvP s1 := by
      cases dgram with
      | none =>
        rw [Option.some.injEq, Prod.mk.injEq] at hin
        rw [← hin.1]
        exact hInv
      | some d0 => exact process_input_inv hin hInv
    split at h
    · exact absurd h (by simp)
    · rename_i s2 d2 hno
      rw [Option.some.injEq, Prod.mk.injEq] at h
      rw [← h.1]
      exact process_next_output_inv hno hInv1
    · rename_i s2 hno
      have hInv2 : ServerInvP s2 := process_next_output_inv hno hInv1
      split at h
      · exact absurd h (by simp)
      · rw [Option.some.injEq, Prod.mk.injEq] at h
        rw [← h.1]
        exact hInv2
      · rw [Option.some.injEq, Prod.mk.injEq] at h
        rw [← h.1]
        exact hInv2

lemma drainWaiting_none_waiting {env : Env} {now : Nat} :
    ∀ {fuel : Nat} {s s' : Server},
      drainWaiting env now fuel s = some (s', none) → s'.waiting = [] := by
  intro fuel
  induction fuel with
  | zero => intro s s' h; exact absurd h (by simp [drainWaiting])
  | succ fuel ih =>
    intro s s' h
    unfold drainWaiting at h
    split at h
    · rename_i hnil
      rw [Option.some.injEq, Prod.mk.injEq] at h
      rw [← h.1]
      exact hnil
    · split at h
      · exact absurd h (by simp)
      · rename_i s1 d1 hpc
        rw [Option.some.injEq, Prod.mk.injEq] at h
        exact absurd h.2 (by simp)
      · exact ih h

lemma drainTimers_none_waiting {env : Env} {now : Nat} :
    ∀ {fuel : Nat} {s s' : Server},
      drainTimers env now fuel s = some (s', none) → s'.waiting = s.waiting := by
  intro fuel
  induction fuel with
  | zero => intro s s' h; exact absurd h (by simp [drainTimers])
  | succ fuel ih =>
    intro s s' h
    unfold drainTimers at h
    split at h
    · rw [Option.some.injEq, Prod.mk.injEq] at h
      rw [← h.1]
    · rename_i r timers' htk
      split at h
      · exact absurd h (by simp)
      · rename_i s1 d1 hpc
        rw [Option.some.injEq, Prod.mk.injEq] at h
        exact absurd h.2 (by simp)
      · rename_i s1 hpc
        have h1 := ih h
        have h2 := process_connection_waiting_none hpc
        rw [h1, h2]

lemma drainTimers_none_bound {env : Env} {now : Nat} :
    ∀ {fuel : Nat} {s s' : Server},
      drainTimers env now fuel s = some (s', none) →
      ∀ e ∈ s'.timers, now < e.1 := by
  intro fuel
  induction fuel with
  | zero => intro s s' h; exact absurd h (by simp [drainTimers])
  | succ fuel ih =>
    intro s s' h
    unfold drainTimers at h
    split at h
    · rename_i htk
      rw [Option.some.injEq, Prod.mk.injEq] at h
      rw [← h.1]
      exact takeNext_none_bound htk
    · split at h
      · exact absurd h (by simp)
      · rename_i s1 d1 hpc
        rw [Option.some.injEq, Prod.mk.injEq] at h
        exact absurd h.2 (by simp)
      · exact ih h

lemma process_next_output_none_waiting {env : Env} {s : Server}
    {now fuel : Nat} {s' : Server}
    (h : process_next_output env s now fuel = some (s', none)) :
    s'.waiting = [] := by
  unfold process_next_output at h
  split at h
  · exact absurd h (by simp)
  · rename_i s1 d1 hw
    rw [Option.some.injEq, Prod.mk.injEq] at h
    exact absurd h.2 (by simp)
  · rename_i s1 hw
    rw [drainTimers_none_waiting h]
    exact drainWaiting_none_waiting hw

lemma process_next_output_none_bound {env : Env} {s : Server}
    {now fuel : Nat} {s' : Server}
    (h : process_next_output env s now fuel = some (s', none)) :
    ∀ e ∈ s'.timers, now < e.1 := by
  unfold process_next_output at h
  split at h
  · exact absurd h (by simp)
  · rename_i s1 d1 hw
    rw [Option.some.injEq, Prod.mk.injEq] at h
    exact absurd h.2 (by simp)
  · exact drainTimers_none_bound h

lemma timersNextTime_eq_none {T : List (Nat × Nat)}
    (h : timersNextTime T = none) : T = [] := by
  cases T with
  | nil => rfl
  | cons e rest =>
    unfold timersNextTime at h
    split at h <;> exact absurd h (by simp)

lemma timersNextTime_mem :
    ∀ {T : List (Nat × Nat)} {x : Nat}, timersNextTime T = some x →
      ∃ e ∈ T, e.1 = x := by
  intro T
  induction T with
  | nil => intro x h; exact absurd h (by simp [timersNextTime])
  | cons e rest ih =>
    intro x h
    unfold timersNextTime at h
    split at h
    · rename_i hrest
      injection h with h
      exact ⟨e, List.mem_cons_self e rest, h⟩
    · rename_i m hrest
      injection h with h
      rcases Nat.le_total e.1 m with hle | hle
      · rw [min_eq_left hle] at h
        exact ⟨e, List.mem_cons_self e rest, h⟩
      · rw [min_eq_right hle] at h
        obtain ⟨e', he', hx⟩ := ih hrest
        exact ⟨e', List.mem_cons_of_mem e he', by rw [hx, h]⟩

lemma process_nondgram_elim {env : Env} {s : Server} {dgram : Option Datagram}
    {now fuel : Nat} {s' : Server} {out : Output}
    (h : Server.process env s dgram now fuel = some (s', out))
    (hnd : out.dgram = none) :
    ∃ s1, process_next_output env s1 now fuel = some (s', none) ∧
      ((out = Output.None ∧ next_time s' now = some none) ∨
       (∃ delay, out = Output.Callback delay ∧
          next_time s' now = some (some delay))) := by
  unfold Server.process at h
  split at h
  · exact absurd h (by simp)
  · rename_i s1 d1 hin
    rw [Option.some.injEq, Prod.mk.injEq] at h
    rw [← h.2] at hnd
    exact absurd hnd (by simp [Output.dgram])
  · rename_i s1 hin
    split at h
    · exact absurd h (by simp)
    · rename_i s2 d2 hno
      rw [Option.some.injEq, Prod.mk.injEq] at h
      rw [← h.2] at hnd
      exact absurd hnd (by simp [Output.dgram])
    · rename_i s2 hno
      split at h
      · exact absurd h (by simp)
      · rename_i delay hnt
        rw [Option.some.injEq, Prod.mk.injEq] at h
        refine ⟨s1, ?_, Or.inr ⟨delay, h.2.symm, ?_⟩⟩
        · rw [← h.1]; exact hno
        · rw [← h.1]; exact hnt
      · rename_i hnt
        rw [Option.some.injEq, Prod.mk.injEq] at h
        refine ⟨s1, ?_, Or.inl ⟨h.2.symm, ?_⟩⟩
        · rw [← h.1]; exact hno
        · rw [← h.1]; exact hnt

lemma drainWaiting_nil {env : Env} {now fuel : Nat} {s : Server}
    (hw : s.waiting = []) :
    drainWaiting env now (fuel + 1) s = some (s, none) := by
  unfold drainWaiting
  split
  · rfl
  · rename_i r rest hcons
    rw [hw] at hcons
    exact absurd hcons (by simp)

lemma drainTimers_nil {env : Env} {now fuel : Nat} {s : Server}
    (ht : s.timers = []) :
    drainTimers env now (fuel + 1) s = some (s, none) := by
  unfold drainTimers
  split
  · rfl
  · rename_i r timers' htk
    rw [ht] at htk
    exact absurd htk (by simp [takeNext])

lemma process_next_output_nil {env : Env} {now fuel : Nat} {s : Server}
    (hw : s.waiting = []) (ht : s.timers = []) :
    process_next_output env s now (fuel + 1) = some (s, none) := by
  unfold process_next_output
  rw [drainWaiting_nil hw]
  exact drainTimers_nil ht

lemma process_dormant {env : Env} {s : Server} {now fuel : Nat}
    (hw : s.waiting = []) (ht : s.timers = []) :
    Server.process env s none now (fuel + 1) = some (s, Output.None) := by
  unfold Server.process
  dsimp only
  rw [process_next_output_nil hw ht]
  dsimp only
  unfold next_time
  rw [hw, ht]
  rfl

lemma process_connection_odcid {env : Env} {t : Server} {r : Nat}
    {dgram : Option Datagram} {now : Nat} {s' : Server} {d : Option Datagram}
    (h : process_connection env t r dgram now = some (s', d))
    {scs : ServerConnectionState} (hsc : alookup t.heap r = some scs) :
    ((alookup s'.heap r).map fun x => x.c.odcid) = some scs.c.odcid := by
  obtain ⟨scs2, cc, reg, hsc2, hm, rfl, rfl⟩ := process_connection_elim h
  rw [hsc] at hsc2
  injection hsc2 with hsc2
  subst hsc2
  obtain ⟨lt, hh⟩ := pcFinish_heap_self _ _ cc reg now hsc
  rw [hh]
  simp [Connection.process_odcid]

lemma applyOutput_callback_timers {t : Server} {r : Nat} (c' : Connection)
    {lt delta now : Nat} {A : ServerConnectionState}
    (hsc1 : alookup t.heap r = some A) (hAlt : A.last_timer = lt)
    (hnext : now + delta ≠ lt)
    (hrem : timersOfConn (t.timers.filter fun e =>
        decide (¬(e.1 = lt ∧ e.2 = r))) r = []) :
    timersOfConn (applyOutput t r c' lt (Output.Callback delta) now).timers r
      = [(now + delta, r)] := by
  rw [applyOutput_Callback, if_neg hnext]
  dsimp only
  have hre := removeTimer_eq hsc1
  rw [hAlt] at hre
  rw [hre]
  dsimp only
  rw [timersOfConn_append, hrem]
  simp [timersOfConn]

lemma process_connection_callback_timers {env : Env} {s : Server} {r : Nat}
    {dgram : Option Datagram} {now : Nat} {s' : Server} {d : Option Datagram}
    {scs : ServerConnectionState} {delta : Nat}
    (hsc : alookup s.heap r = some scs)
    (h : process_connection env s r dgram now = some (s', d))
    (hout : (Connection.process scs.c dgram now).2.1 = Output.Callback delta)
    (hnext : now + delta ≠ scs.last_timer) (hInv : ServerInvP s) :
    timersOfConn s'.timers r = [(now + delta, r)] := by
  obtain ⟨scs2, cc, reg, hsc2, hm, rfl, rfl⟩ := process_connection_elim h
  rw [hsc] at hsc2
  injection hsc2 with hsc2
  subst hsc2
  obtain ⟨h1, h2, h3⟩ := hInv
  rw [pcFinish_timers, hout]
  have hsc1 : alookup (heapSet s.heap r
      { scs with c := (Connection.process scs.c dgram now).1 }) r
      = some { scs with c := (Connection.process scs.c dgram now).1 } := by
    rw [alookup_heapSet_self, hsc]
    rfl
  exact applyOutput_callback_timers _ hsc1 rfl hnext
    (timersOfConn_removed hsc rfl h3)

/-! ### Claim theorems -/

/-- Claim C2: for every datagram whose first header decodes to a non-Short
type with an SCID, whose DCID misses the registry, whose length is at least
1200 and whose version differs from the server's, `process_input` returns
exactly one Version Negotiation datagram: addresses swapped, destination CID
= client's SCID, source CID = client's DCID, version list
`[server version, 0xAABACADA]`; the server state is unchanged. -/
theorem version_negotiation_reply (env : Env) (s : Server) (dgram : Datagram)
    (now : Nat) (hdr : PacketHdr) (scid : ConnectionId)
    (hdec : env.decode dgram.payload = some hdr)
    (hshort : hdr.tipe ≠ PacketType.Short)
    (hmiss : alookup s.connections hdr.dcid = none)
    (hlen : MIN_INITIAL_PACKET_SIZE ≤ dgram.payload.length)
    (hver : hdr.version ≠ some s.version)
    (hscid : hdr.scid = some scid) :
    process_input env s dgram now =
      some (s, some { source := dgram.destination,
                      destination := dgram.source,
                      payload := env.encVn
                        { tbyte := 0,
                          tipe := PacketType.VN [s.version, 0xaabacada],
                          version := some 0, dcid := scid,
                          scid := some hdr.dcid, pn := 0, epoch := 0 } }) := by
  rw [process_input_eq hdec, hmiss]
  dsimp only
  rw [if_neg hshort, if_neg (Nat.not_lt.mpr hlen), if_pos hver]
  unfold create_vn
  rw [hscid]

/-- Witness for C2 at the spec's S1 scenario (wrong version 99, 1200-byte
datagram). -/
theorem version_negotiation_reply_witness :
    process_input envVnW sNewW dgW 3 =
      some (sNewW, some { source := dgW.destination,
                          destination := dgW.source,
                          payload := envVnW.encVn
                            { tbyte := 0,
                              tipe := PacketType.VN [sNewW.version, 0xaabacada],
                              version := some 0, dcid := [202, 254],
                              scid := some hdrVnW.dcid,
                              pn := 0, epoch := 0 } }) :=
  version_negotiation_reply envVnW sNewW dgW 3 hdrVnW [202, 254] rfl
    (by decide) rfl (by simp [dgW, List.length_replicate, MIN_INITIAL_PACKET_SIZE])
    (by decide) rfl

/-- Claim C3: a datagram whose decoded DCID hits the registry is routed to
exactly the registered connection: `process_input` equals
`process_connection` on that connection with the whole datagram; that
connection's call log grows by exactly the one entry `(datagram, now)`, and
the heap entry of every other connection is untouched. -/
theorem routing_to_registered_connection (env : Env) (s : Server)
    (dgram : Datagram) (now : Nat) (hdr : PacketHdr) (r : Nat)
    (scs : ServerConnectionState)
    (hdec : env.decode dgram.payload = some hdr)
    (hreg : alookup s.connections hdr.dcid = some r)
    (hsc : alookup s.heap r = some scs) :
    process_input env s dgram now
      = process_connection env s r (some dgram) now ∧
    ∀ s' d, process_connection env s r (some dgram) now = some (s', d) →
      ((alookup s'.heap r).map fun x => x.c.log)
        = some (scs.c.log ++ [(some dgram, now)]) ∧
      ∀ r2, r2 ≠ r → alookup s'.heap r2 = alookup s.heap r2 := by
  constructor
  · rw [process_input_eq hdec, hreg]
  · intro s' d hpc
    obtain ⟨scs2, cc, reg, hsc2, hm, rfl, rfl⟩ := process_connection_elim hpc
    rw [hsc] at hsc2
    injection hsc2 with hsc2
    subst hsc2
    constructor
    · obtain ⟨lt, hh⟩ := pcFinish_heap_self _ _ cc reg now hsc
      rw [hh]
      simp [Connection.process_log]
    · intro r2 hr2
      exact pcFinish_heap_ne _ _ _ _ _ _ _ _ hr2

/-- Witness for C3: a short-header datagram for registered CID `[5]`. -/
theorem routing_to_registered_connection_witness :
    (process_input envHitW sHitW dgSmallW 7
      = process_connection envHitW sHitW 0 (some dgSmallW) 7) ∧
    ((alookup sHitResW.heap 0).map fun x => x.c.log)
      = some (c0W.log ++ [(some dgSmallW, 7)]) ∧
    alookup sHitResW.heap 3 = alookup sHitW.heap 3 :=
  ⟨(routing_to_registered_connection envHitW sHitW dgSmallW 7 hdrHitW 0
      { c := c0W, last_timer := 10 } rfl rfl rfl).1,
   ((routing_to_registered_connection envHitW sHitW dgSmallW 7 hdrHitW 0
      { c := c0W, last_timer := 10 } rfl rfl rfl).2 sHitResW none rfl).1,
   ((routing_to_registered_connection envHitW sHitW dgSmallW 7 hdrHitW 0
      { c := c0W, last_timer := 10 } rfl rfl rfl).2 sHitResW none rfl).2
     3 (by decide)⟩

/-- Claim C4: an inbound datagram with a decodable non-Short header, an
unknown DCID and fewer than 1200 payload bytes is dropped: `process_input`
returns `(s, none)` with the state unchanged. -/
theorem anti_amplification_floor (env : Env) (s : Server) (dgram : Datagram)
    (now : Nat) (hdr : PacketHdr)
    (hdec : env.decode dgram.payload = some hdr)
    (hmiss : alookup s.connections hdr.dcid = none)
    (hshort : hdr.tipe ≠ PacketType.Short)
    (hlen : dgram.payload.length < MIN_INITIAL_PACKET_SIZE) :
    process_input env s dgram now = some (s, none) := by
  rw [process_input_eq hdec, hmiss]
  dsimp only
  rw [if_neg hshort, if_pos hlen]

/-- Witness for C4: a 1-byte Initial datagram for an unknown CID. -/
theorem anti_amplification_floor_witness :
    process_input envAW sNewW dgSmallW 3 = some (sNewW, none) :=
  anti_amplification_floor envAW sNewW dgSmallW 3 hdrEmptyTokW rfl rfl
    (by decide) (by decide)

/-- Claim C5 (code bug): the claim says any non-empty Initial token that
does not start with `[1, 2, 3]` makes `validate` return `Invalid` and the
packet is dropped; but the source slices `token[0..3]` unconditionally, so a
token of length 1 or 2 makes `RetryToken::validate` panic (index out of
range) instead of returning `Invalid`.  The model evaluates the panic
(`none`) on the one-byte token `[0x09]`. -/
theorem validate_short_token_panics :
    RetryToken.validate true
      { tbyte := 0, tipe := PacketType.Initial [9], version := some 1,
        dcid := [1], scid := some [2], pn := 0, epoch := 0 } = none := rfl

/-- Claim C9: the wrapper's `generate_cid` returns exactly the underlying
generator's CID; a zero-length mint asserts (panics); on success the
registry maps the CID to the wrapper's own connection, and any entry the
insert displaced was already bound to the same connection (else the debug
assert panics, so no `some` result exists). -/
theorem generate_cid_registers (env : Env) (cc : Nat)
    (reg : List (ConnectionId × Nat)) (r : Nat) :
    (env.mint cc = [] → wrapperGenerateCid env cc reg r = none) ∧
    ∀ cid cc' reg', wrapperGenerateCid env cc reg r = some (cid, cc', reg') →
      cid = env.mint cc ∧ cid ≠ [] ∧ alookup reg' cid = some r ∧
      (alookup reg cid = none ∨ alookup reg cid = some r) := by
  constructor
  · intro hemp
    unfold wrapperGenerateCid
    rw [if_pos hemp]
  · intro cid cc' reg' hw
    obtain ⟨hcid, hne, hcc, hreg, hold⟩ := wrapperGenerateCid_elim hw
    refine ⟨hcid, hne, ?_, ?_⟩
    · rw [hreg, alookup_cons, if_pos rfl]
    · cases halk : alookup reg cid with
      | none => exact Or.inl rfl
      | some v => exact Or.inr (by rw [hold v halk])

/-- Witness for C9: a zero-length mint panics; a fresh mint `[42]` is
returned and registered to connection `0`. -/
theorem generate_cid_registers_witness :
    wrapperGenerateCid envNilW 0 [] 0 = none ∧
    (([42] : ConnectionId) = envVnW.mint 0 ∧ ([42] : ConnectionId) ≠ [] ∧
     alookup [(([42] : ConnectionId), 0)] [42] = some 0 ∧
     (alookup ([] : List (ConnectionId × Nat)) [42] = none ∨
      alookup ([] : List (ConnectionId × Nat)) [42] = some 0)) :=
  ⟨(generate_cid_registers envNilW 0 [] 0).1 rfl,
   (generate_cid_registers envVnW 0 [] 0).2 [42] 1 [([42], 0)] rfl⟩

/-- Claim C1: the Retry round trip.  Part 1: with `require_retry` set, a
fresh Initial (empty token, unknown DCID, ≥ 1200 bytes, matching version)
produces a Retry datagram whose addresses are swapped and whose token is
`generate_token(client DCID) = [1, 2, 3] ++ DCID`; only the CID-generator
state advances.  Part 2: an Initial carrying exactly that token validates to
`Valid(odcid)` with `odcid` the first-flight DCID, is routed to
`accept_connection`, and the accepted connection has been told the original
destination CID via `original_connection_id`. -/
theorem retry_round_trip :
    (∀ env (s : Server) dgram now hdr scid,
      s.require_retry = true →
      env.decode dgram.payload = some hdr →
      hdr.tipe = PacketType.Initial [] →
      alookup s.connections hdr.dcid = none →
      MIN_INITIAL_PACKET_SIZE ≤ dgram.payload.length →
      hdr.version = some s.version →
      hdr.scid = some scid →
      RetryToken.generate_token hdr.dcid = FIXED_TOKEN ++ hdr.dcid ∧
      process_input env s dgram now =
        some ({ s with cidCounter := s.cidCounter + 1 },
              some { source := dgram.destination,
                     destination := dgram.source,
                     payload := env.encRetry
                       { tbyte := 0,
                         tipe := PacketType.Retry hdr.dcid
                           (RetryToken.generate_token hdr.dcid),
                         version := some s.version, dcid := scid,
                         scid := some (env.mint s.cidCounter),
                         pn := 0, epoch := 0 } })) ∧
    (∀ env (s : Server) dgram now hdr dcid0,
      env.decode dgram.payload = some hdr →
      hdr.tipe = PacketType.Initial (RetryToken.generate_token dcid0) →
      alookup s.connections hdr.dcid = none →
      MIN_INITIAL_PACKET_SIZE ≤ dgram.payload.length →
      hdr.version = some s.version →
      RetryToken.validate s.require_retry hdr
        = some (RetryTokenResult.Valid dcid0) ∧
      process_input env s dgram now
        = accept_connection env s (some dcid0) dgram now ∧
      ∀ s' d, accept_connection env s (some dcid0) dgram now = some (s', d) →
        env.newServer s.nextRef ≠ none →
        ((alookup s'.heap s.nextRef).map fun x => x.c.odcid)
          = some (some dcid0)) := by
  constructor
  · intro env s dgram now hdr scid hrr hdec ht hmiss hlen hver hscid
    refine ⟨rfl, ?_⟩
    have hshort : hdr.tipe ≠ PacketType.Short := by rw [ht]; simp
    have hv : RetryToken.validate s.require_retry hdr
        = some RetryTokenResult.Validate := by
      rw [validate_empty s.require_retry ht, hrr]
      rfl
    rw [process_input_eq hdec, hmiss]
    dsimp only
    rw [if_neg hshort, if_neg (Nat.not_lt.mpr hlen),
        if_neg (by simp [hver]), handle_initial_validate hv hscid]
  · intro env s dgram now hdr dcid0 hdec ht hmiss hlen hver
    have hshort : hdr.tipe ≠ PacketType.Short := by rw [ht]; simp
    have hv : RetryToken.validate s.require_retry hdr
        = some (RetryTokenResult.Valid dcid0) :=
      validate_prefixed s.require_retry dcid0 ht
    refine ⟨hv, ?_, ?_⟩
    · rw [process_input_eq hdec, hmiss]
      dsimp only
      rw [if_neg hshort, if_neg (Nat.not_lt.mpr hlen),
          if_neg (by simp [hver]), handle_initial_valid hv]
    · intro s' d hacc hns
      unfold accept_connection at hacc
      split at hacc
      · rename_i hc0
        exact absurd hc0 hns
      · rename_i c0 hc0
        dsimp only at hacc
        rw [process_connection_odcid hacc
          (show alookup ((s.nextRef,
              { c := Connection.original_connection_id c0 dcid0,
                last_timer := now }) :: s.heap) s.nextRef
            = some { c := Connection.original_connection_id c0 dcid0,
                     last_timer := now } by
            rw [alookup_cons, if_pos rfl])]
        rfl

/-- Witness for C1 at the spec's S3 retry dance (client DCID
`11 22 33 44`). -/
theorem retry_round_trip_witness :
    (RetryToken.generate_token hdrEmptyTokW.dcid
        = FIXED_TOKEN ++ hdrEmptyTokW.dcid ∧
     process_input envAW sRetryW dgW 50 =
       some ({ sRetryW with cidCounter := sRetryW.cidCounter + 1 },
             some { source := dgW.destination, destination := dgW.source,
                    payload := envAW.encRetry
                      { tbyte := 0,
                        tipe := PacketType.Retry hdrEmptyTokW.dcid
                          (RetryToken.generate_token hdrEmptyTokW.dcid),
                        version := some sRetryW.version, dcid := [202, 254],
                        scid := some (envAW.mint sRetryW.cidCounter),
                        pn := 0, epoch := 0 } })) ∧
    (RetryToken.validate sRetryW.require_retry hdrTokW
        = some (RetryTokenResult.Valid [17, 34, 51, 68]) ∧
     process_input envBW sRetryW dgW 50
        = accept_connection envBW sRetryW (some [17, 34, 51, 68]) dgW 50 ∧
     ((alookup sAccBW.heap sRetryW.nextRef).map fun x => x.c.odcid)
        = some (some [17, 34, 51, 68])) :=
  ⟨retry_round_trip.1 envAW sRetryW dgW 50 hdrEmptyTokW [202, 254] rfl rfl
     rfl rfl (by simp [dgW, List.length_replicate, MIN_INITIAL_PACKET_SIZE])
     rfl rfl,
   (retry_round_trip.2 envBW sRetryW dgW 50 hdrTokW [17, 34, 51, 68] rfl rfl
     rfl (by simp [dgW, List.length_replicate, MIN_INITIAL_PACKET_SIZE])
     rfl).1,
   (retry_round_trip.2 envBW sRetryW dgW 50 hdrTokW [17, 34, 51, 68] rfl rfl
     rfl (by simp [dgW, List.length_replicate, MIN_INITIAL_PACKET_SIZE])
     rfl).2.1,
   (retry_round_trip.2 envBW sRetryW dgW 50 hdrTokW [17, 34, 51, 68] rfl rfl
     rfl (by simp [dgW, List.length_replicate, MIN_INITIAL_PACKET_SIZE])
     rfl).2.2 sAccBW none rfl (by decide)⟩

/-- Claim C7: if the connection's state is `Closed` after its `process`
invocation inside `process_connection`, every registry entry mapping any CID
to that connection is removed before `process_connection` returns; and
consequently the invariant "every registry key maps to a non-Closed
connection" is preserved by `process_connection`. -/
theorem closed_connection_purged :
    (∀ env (s : Server) r dgram now s' d scs',
      process_connection env s r dgram now = some (s', d) →
      alookup s'.heap r = some scs' →
      scs'.c.curState.isClosed = true →
      s'.connections.filter (fun p => decide (p.2 = r)) = []) ∧
    (∀ env (s : Server) r dgram now s' d,
      process_connection env s r dgram now = some (s', d) →
      RegistryInvP s → RegistryInvP s') :=
  ⟨fun _ _ _ _ _ _ _ _ h hh hcl =>
     process_connection_closed_purge h hh hcl,
   fun _ _ _ _ _ _ _ h hreg => process_connection_regInv h hreg⟩

/-- Witness for C7: a connection that closes while registered under CID
`[5]`; the registry is emptied and the registry invariant holds after. -/
theorem closed_connection_purged_witness :
    (sClResW.connections.filter (fun p => decide (p.2 = 0)) = []) ∧
    RegistryInvP sClResW :=
  ⟨closed_connection_purged.1 envVnW sCloseW 0 none 7 sClResW none scsClResW
     rfl rfl rfl,
   closed_connection_purged.2 envVnW sCloseW 0 none 7 sClResW none rfl
     (by decide)⟩

/-- Claim C6: timer uniqueness.  `process_connection` and hence any
`process` call preserves the invariant that every connection has at most
one timer-wheel entry whose deadline equals its stored `last_timer`; and
when the connection returns `Callback(delta)` with `now + delta` different
from `last_timer`, the prior wheel entry is removed and exactly the single
entry `(now + delta, r)` remains for that connection. -/
theorem timer_wheel_unique_deadline :
    (∀ env (s : Server) r dgram now s' d,
      process_connection env s r dgram now = some (s', d) →
      ServerInvP s → ServerInvP s') ∧
    (∀ env (s : Server) dgram now fuel s' out,
      Server.process env s dgram now fuel = some (s', out) →
      ServerInvP s → ServerInvP s') ∧
    (∀ env (s : Server) r dgram now s' d scs delta,
      alookup s.heap r = some scs →
      process_connection env s r dgram now = some (s', d) →
      (Connection.process scs.c dgram now).2.1 = Output.Callback delta →
      now + delta ≠ scs.last_timer →
      ServerInvP s →
      timersOfConn s'.timers r = [(now + delta, r)]) :=
  ⟨fun _ _ _ _ _ _ _ h hI => process_connection_inv h hI,
   fun _ _ _ _ _ _ _ h hI => Server.process_inv h hI,
   fun _ _ _ _ _ _ _ _ _ hsc h hout hnext hI =>
     process_connection_callback_timers hsc h hout hnext hI⟩

/-- Witness for C6 at the spec's S5 timer-coalescing scenario: a connection
with deadline 10 returns `Callback(5)` at `now = 7`; exactly one wheel entry
remains, at deadline 12. -/
theorem timer_wheel_unique_deadline_witness :
    ServerInvP sTimResW ∧ ServerInvP sIdleW ∧
    timersOfConn sTimResW.timers 0 = [(12, 0)] :=
  ⟨timer_wheel_unique_deadline.1 envVnW sTimW 0 none 7 sTimResW none rfl
     (by decide),
   timer_wheel_unique_deadline.2.1 envVnW sIdleW none 7 2 sIdleW
     (Output.Callback 3) rfl (by decide),
   timer_wheel_unique_deadline.2.2 envVnW sTimW 0 none 7 sTimResW none
     { c := cCbW, last_timer := 10 } 5 rfl rfl rfl (by decide) (by decide)⟩

/-- Claim C8: whenever `process` produces no outbound datagram it returns
`Callback(0)` if the waiting queue is non-empty, else `Callback(x - now)`
where `x` is the timer wheel's earliest deadline and `now ≤ x` (the delta is
never negative), else `Output::None`; and `process(None, now)` with no
pending work returns `Output::None` leaving the state unchanged. -/
theorem dormancy_and_callback :
    (∀ env (s : Server) dgram now fuel s' out,
      Server.process env s dgram now fuel = some (s', out) →
      out.dgram = none →
      (s'.waiting ≠ [] → out = Output.Callback 0) ∧
      (s'.waiting = [] → s'.timers = [] → out = Output.None) ∧
      (∀ x, timersNextTime s'.timers = some x →
        now ≤ x ∧ out = Output.Callback (x - now))) ∧
    (∀ env (s : Server) now fuel, s.waiting = [] → s.timers = [] →
      Server.process env s none now (fuel + 1) = some (s, Output.None)) := by
  constructor
  · intro env s dgram now fuel s' out h hnd
    obtain ⟨s1, hno, hcase⟩ := process_nondgram_elim h hnd
    have hw : s'.waiting = [] := process_next_output_none_waiting hno
    have hb := process_next_output_none_bound hno
    refine ⟨fun hne => absurd hw hne, ?_, ?_⟩
    · intro _ ht
      rcases hcase with ⟨ho, _⟩ | ⟨delay, ho, hnt⟩
      · exact ho
      · exfalso
        unfold next_time at hnt
        rw [hw, ht] at hnt
        simp [timersNextTime] at hnt
    · intro x hx
      rcases hcase with ⟨ho, hnt⟩ | ⟨delay, ho, hnt⟩
      · exfalso
        unfold next_time at hnt
        rw [hw, hx] at hnt
        split_ifs at hnt <;> simp_all
      · have hle : now ≤ x := by
          obtain ⟨e, he, he1⟩ := timersNextTime_mem hx
          exact Nat.le_of_lt (he1 ▸ hb e he)
        refine ⟨hle, ?_⟩
        rw [ho]
        unfold next_time at hnt
        rw [hw, hx] at hnt
        simp only [List.isEmpty_nil] at hnt
        rw [if_pos trivial, if_pos hle] at hnt
        injection hnt with hnt
        injection hnt with hnt
        rw [← hnt]
  · intro env s now fuel hw ht
    exact process_dormant hw ht

/-- Witness for C8: with one timer entry at deadline 10 and `now = 7`,
`process` returns `Callback(3) = Callback(10 - 7)`; with nothing pending it
returns `Output::None`. -/
theorem dormancy_and_callback_witness :
    (7 ≤ 10 ∧ (Output.Callback 3 : Output) = Output.Callback (10 - 7)) ∧
    Server.process envVnW sNewW none 7 1 = some (sNewW, Output.None) :=
  ⟨(dormancy_and_callback.1 envVnW sIdleW none 7 2 sIdleW (Output.Callback 3)
      rfl rfl).2.2 10 rfl,
   dormancy_and_callback.2 envVnW sNewW 7 0 rfl rfl⟩

/-- Claim C10 (implicit): whenever `process_next_output` completes without a
datagram the waiting queue is empty — the drain loop re-enqueues a
connection only when it just produced a datagram, which is returned at
once — so the `Callback(0)` branch of `next_time` is unreachable from
`process`, and every `Callback` duration `process` returns derives from the
timer wheel's earliest deadline. -/
theorem drained_waiting_empty :
    (∀ env (s : Server) now fuel s',
      process_next_output env s now fuel = some (s', none) →
      s'.waiting = []) ∧
    (∀ env (s : Server) dgram now fuel s' delay,
      Server.process env s dgram now fuel = some (s', Output.Callback delay) →
      s'.waiting = [] ∧
      (timersNextTime s'.timers).map (fun x => x - now) = some delay) := by
  constructor
  · intro env s now fuel s' h
    exact process_next_output_none_waiting h
  · intro env s dgram now fuel s' delay h
    obtain ⟨s1, hno, hcase⟩ := process_nondgram_elim h rfl
    have hw : s'.waiting = [] := process_next_output_none_waiting hno
    have hb := process_next_output_none_bound hno
    refine ⟨hw, ?_⟩
    rcases hcase with ⟨ho, _⟩ | ⟨delay2, ho, hnt⟩
    · exact absurd ho (by simp)
    · injection ho with ho
      subst ho
      cases hx : timersNextTime s'.timers with
      | none =>
        exfalso
        unfold next_time at hnt
        rw [hw, hx] at hnt
        simp at hnt
      | some x =>
        have hle : now ≤ x := by
          obtain ⟨e, he, he1⟩ := timersNextTime_mem hx
          exact Nat.le_of_lt (he1 ▸ hb e he)
        unfold next_time at hnt
        rw [hw, hx] at hnt
        simp only [List.isEmpty_nil] at hnt
        rw [if_pos trivial, if_pos hle] at hnt
        exact Option.some.inj hnt

/-- Witness for C10 at the single-timer scenario: the drain completes with
an empty waiting queue and the returned `Callback(3)` equals the earliest
deadline 10 minus `now = 7`. -/
theorem drained_waiting_empty_witness :
    sIdleW.waiting = [] ∧
    (sIdleW.waiting = [] ∧
     (timersNextTime sIdleW.timers).map (fun x => x - 7) = some 3) :=
  ⟨drained_waiting_empty.1 envVnW sIdleW 7 2 sIdleW rfl,
   drained_waiting_empty.2 envVnW sIdleW none 7 2 sIdleW 3 rfl⟩

end Neqo
